import Mathlib

/-!
Verification of the precision-resolution and rounding engine of `significant.js`
(the first, authoritative draft in the repository; the file also contains an older
near-duplicate draft which the spec calls historical drift).

Modelling conventions (a shallow embedding of the JavaScript source):
* JavaScript numbers are modelled by exact rationals (`ℚ`).  All arithmetic in the
  source is elementary (+, -, *, /, floor, round, powers of ten), and the exact
  rational semantics is the idealisation of the IEEE-754 evaluation.
* `Math.round` is round-half-toward-positive-infinity, `Math.trunc` truncates
  toward zero, `x % n` keeps the sign of the dividend; each is modelled explicitly.
* `Math.floor(Math.log10 |x|)` is modelled by the (computable, exact) `Int.log 10`;
  the theorem for claim C4 proves this agrees with `⌊Real.logb 10 |x|⌋`.
* Strings are processed as lists of characters; the regular expressions of the
  source are transcribed as explicit structural parsers.
* Logging (`logit`, `debugit`, `warnit`, `strVerb`, ...) is output-irrelevant and
  dropped.  The nondeterministic parts that no claim depends on are idealised and
  marked at their definitions: `Math.random()` flicker noise is taken at its
  minimum 0, and the wall-clock dependent `testing` early return of the original
  value (source line 770) is not modelled.
* A thrown JavaScript exception is modelled by `Option.none`: the only reachable
  throw site of the transform is `Number.prototype.toExponential` with an argument
  outside `[0, 100]` (a `RangeError`).
-/

namespace Significant

/-- JS `Math.round`: round half toward positive infinity, `⌊q + 1/2⌋`. -/
def jsRound (q : ℚ) : ℤ := ⌊q + 1/2⌋

/-- JS `Math.trunc` and JS integer conversion (`ToIntegerOrInfinity`): truncation
toward zero. -/
def jsTrunc (q : ℚ) : ℤ := if q < 0 then -⌊-q⌋ else ⌊q⌋

/-- JS remainder `a % b` (sign follows the dividend `a`); `a % 0` is NaN in JS and
unreachable in the modelled code paths (the divisor is the literal 360). -/
def jsMod (a b : ℚ) : ℚ := if b = 0 then 0 else a - b * (jsTrunc (a / b) : ℚ)

/-- Helper `clamp(x, [minVal, maxVal])` of significant.js (source line 806). -/
def clamp (x lo hi : ℚ) : ℚ := min hi (max lo x)

/-- Helper `roundTo(x, decimals)` of significant.js (source line 811). -/
def roundTo (x : ℚ) (decimals : ℤ) : ℚ :=
  let factor : ℚ := 10 ^ decimals
  (jsRound (x * factor) : ℚ) / factor

/-- Fuel-structural base-10 logarithm on naturals (`⌊log₁₀ n⌋` for `n ≥ 1`),
written with explicit fuel so that it evaluates by plain kernel reduction. -/
def natLog10 : ℕ → ℕ → ℕ
  | 0, _ => 0
  | fuel + 1, n => if n < 10 then 0 else natLog10 fuel (n / 10) + 1

/-- Fuel-structural base-10 ceiling logarithm on naturals (`⌈log₁₀ n⌉`). -/
def natClog10 : ℕ → ℕ → ℕ
  | 0, _ => 0
  | fuel + 1, n => if n ≤ 1 then 0 else natClog10 fuel ((n + 9) / 10) + 1

/-- Helper `magniTude(x)` of significant.js (source line 825):
`Math.floor(Math.log10(Math.abs x))`, with 0 at `x = 0` to avoid `log10(0)`.
The fuel-structural form computes exactly `Int.log 10 |x|` (the mathematical
`⌊log₁₀ |x|⌋`, see `magniTude_eq_log`); the identification with
`⌊Real.logb 10 |x|⌋` is part of the claim C4 theorem. -/
def magniTude (x : ℚ) : ℤ :=
  if x = 0 then 0
  else if 1 ≤ |x| then (natLog10 ⌊|x|⌋.toNat ⌊|x|⌋.toNat : ℤ)
  else -(natClog10 ⌈|x|⁻¹⌉.toNat ⌈|x|⁻¹⌉.toNat : ℤ)

/-- Helper `toPrec(x, sigfigs)` of significant.js (source line 817): round to a
number of significant figures. -/
def toPrec (x : ℚ) (sigfigs : ℤ) : ℚ :=
  if x = 0 then 0 else
    let magnit := magniTude x
    let factor : ℚ := 10 ^ (sigfigs - magnit - 1)
    (jsRound (x * factor) : ℚ) / factor

/-- Helper `isWithin(value, ...ranges)` (source line 794); a pair `(a, b)` with
`a ≤ b` is a `[min, max]` range, otherwise a `[center, halfwidth]` range.  The
`Number.isFinite` guard of the source is vacuous over `ℚ`. -/
def isWithin (value : ℚ) (ranges : List (ℚ × ℚ)) : Bool :=
  ranges.any fun r =>
    if r.1 ≤ r.2 then decide (r.1 ≤ value) && decide (value ≤ r.2)
    else decide (r.1 - r.2 ≤ value) && decide (value ≤ r.1 + r.2)

/-- Lookup table `BORDERS1` (source line 54), keyed by the step multiplier. -/
def BORDERS1 (mult : ℤ) : List ℚ :=
  if mult = 2 then [2.5, 7.5]
  else if mult = 3 then [1.5, 4.5, 8]
  else if mult = 4 then [1, 3.5, 6, 8.5]
  else if mult = 5 then [1, 3, 5, 7, 9]
  else []

/-- Lookup table `MIDDLES1` (source line 60). -/
def MIDDLES1 (mult : ℤ) : List ℚ :=
  if mult = 2 then [0, 5, 10]
  else if mult = 3 then [0, 3, 6, 10]
  else if mult = 4 then [0, 2, 5, 7, 10]
  else if mult = 5 then [0, 2, 4, 6, 8, 10]
  else []

/-- Lookup table `BORDERS0` (source line 66), for a truncated main value of 0. -/
def BORDERS0 (mult : ℤ) : List ℚ :=
  if mult = 2 then [3, 7.5]
  else if mult = 3 then [2, 4.5, 8]
  else if mult = 4 then [1.5, 3.5, 6, 8.5]
  else if mult = 5 then [1.5, 3, 5, 7, 9]
  else []

/-- Lookup table `MIDDLES0` (source line 72). -/
def MIDDLES0 (mult : ℤ) : List ℚ :=
  if mult = 2 then [1, 5, 10]
  else if mult = 3 then [1, 3, 6, 10]
  else if mult = 4 then [1, 2, 5, 7, 10]
  else if mult = 5 then [1, 2, 4, 6, 8, 10]
  else []

/-- The border scan of source lines 719-721:
`let i = 0; while (i < borders.length && normalizedvalue > borders[i]) i++`. -/
def scanBorders (borders : List ℚ) (x : ℚ) : ℕ :=
  match borders with
  | [] => 0
  | b :: bs => if x > b then scanBorders bs x + 1 else 0

/-- The significant-figure rounding stage, source lines 687-727 (reached only with a
nonzero value).  Note two JS specifics transcribed faithfully: the fractional part
of the target precision is rounded to one decimal (`roundTo(..., 1)`) both before
the branch test and after symmetrisation, and `Math.ceil(1/frac)` is `+∞` for
`frac = 0` (reachable when the fractional part rounds to 1.0), which `clamp`
turns into the multiplier 5. -/
def sigRound (value precisionSeeked0 precisionFound : ℚ) : ℚ :=
  let frac := roundTo (precisionSeeked0 - (⌊precisionSeeked0⌋ : ℚ)) 1
  let precisionSeeked : ℤ := ⌊precisionSeeked0⌋
  let magnit := magniTude value
  let power : ℚ := 10 ^ (magnit - precisionSeeked + 1)
  if 0 < frac ∧ (precisionSeeked : ℚ) < precisionFound then
    let frac1 := if frac > 0.5 then 1 - frac else frac
    let frac2 := roundTo frac1 1
    let mult : ℤ := if frac2 = 0 then 5 else min 5 (max 2 ⌈1 / frac2⌉)
    let sign : ℚ := if value < 0 then -1 else 1
    let newValue := sign * (⌊|value| / power⌋ : ℚ) * power
    let normalizedvalue := sign * (value - newValue) / 10 ^ (magnit - precisionSeeked)
    let borders := if |newValue| < 1e-12 then BORDERS0 mult else BORDERS1 mult
    let middles := if |newValue| < 1e-12 then MIDDLES0 mult else MIDDLES1 mult
    let i := scanBorders borders normalizedvalue
    let rounded := middles.getD i 0
    toPrec (newValue + sign * rounded * 10 ^ (magnit - precisionSeeked))
      (precisionSeeked + 1)
  else
    toPrec value precisionSeeked

/-! ## String and parsing machinery -/

/-- JS whitespace class (the ASCII part; the inputs of this engine are ASCII sensor
strings). -/
def isWsCh (c : Char) : Bool :=
  c = ' ' || c = '\t' || c = '\n' || c = '\r' || c = '\x0b' || c = '\x0c'

/-- JS `String.prototype.trim`. -/
def trimList (cs : List Char) : List Char :=
  ((cs.dropWhile isWsCh).reverse.dropWhile isWsCh).reverse

/-- Value of a list of decimal digit characters. -/
def natOfDigits (ds : List Char) : ℕ :=
  ds.foldl (fun a c => 10 * a + (c.toNat - '0'.toNat)) 0

/-- A decimal number token: the grammar of JS `parseFloat` (sign, digits with an
optional fractional part, optional exponent), which is also exactly the anchored
mantissa regex of source line 337.  The `Infinity` literal accepted by `parseFloat`
is not modelled (see the header). -/
structure NumTok where
  neg : Bool
  intDigits : List Char
  fracDigits : List Char
  expNeg : Bool
  expDigits : List Char
  rest : List Char

/-- Longest-prefix parse of a decimal number token, JS `parseFloat` style: `none`
when no prefix of the input is a number (JS `NaN`). -/
def parseNumTok (cs0 : List Char) : Option NumTok :=
  let signSplit : Bool × List Char :=
    match cs0 with
    | '+' :: t => (false, t)
    | '-' :: t => (true, t)
    | t => (false, t)
  let ints := signSplit.2.takeWhile Char.isDigit
  let cs2 := signSplit.2.dropWhile Char.isDigit
  let fracSplit : List Char × List Char :=
    match cs2 with
    | '.' :: t =>
        let fs := t.takeWhile Char.isDigit
        if ints.isEmpty && fs.isEmpty then ([], cs2)
        else (fs, t.dropWhile Char.isDigit)
    | t => ([], t)
  if ints.isEmpty && fracSplit.1.isEmpty then none
  else
    let expSplit : Bool × List Char × List Char :=
      match fracSplit.2 with
      | c :: t =>
          if c = 'e' || c = 'E' then
            let es : Bool × List Char :=
              match t with
              | '+' :: u => (false, u)
              | '-' :: u => (true, u)
              | u => (false, u)
            let eds := es.2.takeWhile Char.isDigit
            if eds.isEmpty then (false, [], fracSplit.2)
            else (es.1, eds, es.2.dropWhile Char.isDigit)
          else (false, [], fracSplit.2)
      | [] => (false, [], [])
    some ⟨signSplit.1, ints, fracSplit.1, expSplit.1, expSplit.2.1, expSplit.2.2⟩

/-- Exact value of a number token. -/
def tokVal (t : NumTok) : ℚ :=
  let mant : ℚ := (natOfDigits t.intDigits : ℚ) +
    (natOfDigits t.fracDigits : ℚ) / 10 ^ t.fracDigits.length
  let e : ℤ := (if t.expNeg then -1 else 1) * (natOfDigits t.expDigits : ℤ)
  (if t.neg then -1 else 1) * mant * 10 ^ e

/-- JS `parseFloat` on a character list (`none` = `NaN`). -/
def jsParseFloat (cs : List Char) : Option ℚ := (parseNumTok cs).map tokVal

/-- The count of significant input figures, source lines 342-347: the mantissa
digits with the sign and decimal point removed; if some digit is nonzero, the
length after stripping leading zeros, else the 0.5 half-figure sentinel. -/
def precisionFoundOf (t : NumTok) : ℚ :=
  let digits := t.intDigits ++ t.fracDigits
  if digits.any (fun c => decide (c ≠ '0')) then
    (((digits.dropWhile (fun c => c = '0')).length : ℕ) : ℚ)
  else 0.5

/-- The unit extraction regex of source line 319, `/\s+(.*)$/`: everything after the
first whitespace run, `none` when the input has no whitespace. -/
def unitOf (cs : List Char) : Option (List Char) :=
  let rest := cs.dropWhile (fun c => !isWsCh c)
  match rest with
  | [] => none
  | _ => some (rest.dropWhile isWsCh)

/-- The interval regex of source line 310,
an unanchored leftmost search for `(-?\d+(?:\.\d+)?)\s*-\s*(-?\d+(?:\.\d+)?)`.
First, one signed plain number (no exponent). -/
def matchSignedNum (cs : List Char) : Option (ℚ × List Char) :=
  let signSplit : Bool × List Char :=
    match cs with
    | '-' :: t => (true, t)
    | t => (false, t)
  let ds := signSplit.2.takeWhile Char.isDigit
  let cs2 := signSplit.2.dropWhile Char.isDigit
  if ds.isEmpty then none
  else
    let fracSplit : List Char × List Char :=
      match cs2 with
      | '.' :: t =>
          let fs := t.takeWhile Char.isDigit
          if fs.isEmpty then ([], cs2) else (fs, t.dropWhile Char.isDigit)
      | t => ([], t)
    let q : ℚ := (if signSplit.1 then -1 else 1) *
      ((natOfDigits ds : ℚ) + (natOfDigits fracSplit.1 : ℚ) / 10 ^ fracSplit.1.length)
    some (q, fracSplit.2)

/-- Attempt the interval pattern at one start position.  (The optional fractional
groups never need backtracking for the overall pattern: dropping or shortening them
leaves a `.` or a digit where `\s*-` must match.) -/
def matchIntervalAt (cs : List Char) : Option (ℚ × ℚ) :=
  match matchSignedNum cs with
  | none => none
  | some (a, r1) =>
      match r1.dropWhile isWsCh with
      | '-' :: r3 =>
          match matchSignedNum (r3.dropWhile isWsCh) with
          | none => none
          | some (b, _) => some (a, b)
      | _ => none

/-- Leftmost unanchored search for the interval pattern. -/
def intervalSearch : List Char → Option (ℚ × ℚ)
  | [] => none
  | c :: t =>
      match matchIntervalAt (c :: t) with
      | some r => some r
      | none => intervalSearch t

/-! ## The divisor option parser (source lines 204-241) -/

/-- IEEE-754 double overflow, idealised exactly for decimal literals: a parsed value
is `Infinity` precisely when its magnitude reaches the rounding threshold
`2^1024 - 2^970`. -/
def jsFinite (q : ℚ) : Bool := |q| < ((2 ^ 1024 - 2 ^ 970 : ℕ) : ℚ)

/-- Latin letter test, the `[A-Za-z]` class. -/
def isAlphaCh (c : Char) : Bool :=
  ('a' ≤ c && c ≤ 'z') || ('A' ≤ c && c ≤ 'Z')

/-- The div regex of source line 209, `^(\d+(?:\.\d+)?)([A-Za-z]*)$`: the numeric
amount and the letter suffix, `none` when the string has any other shape. -/
def divSplit (cs : List Char) : Option (ℚ × List Char) :=
  let ds := cs.takeWhile Char.isDigit
  let cs1 := cs.dropWhile Char.isDigit
  if ds.isEmpty then none
  else
    match cs1 with
    | '.' :: t =>
        let fs := t.takeWhile Char.isDigit
        let t2 := t.dropWhile Char.isDigit
        if fs.isEmpty then none
        else if t2.all isAlphaCh then
          some ((natOfDigits ds : ℚ) + (natOfDigits fs : ℚ) / 10 ^ fs.length, t2)
        else none
    | t => if t.all isAlphaCh then some ((natOfDigits ds : ℚ), t) else none

/-- The `SCALE_MAP` of source line 214. -/
def SCALE_MAP (suffix : String) : Option ℚ :=
  if suffix = "" then some 1
  else if suffix = "k" then some 1000
  else if suffix = "K" then some 1024
  else if suffix = "ki" then some 1024
  else if suffix = "M" then some 1000000
  else if suffix = "Mi" then some (1024 ^ 2)
  else if suffix = "G" then some 1000000000
  else if suffix = "Gi" then some (1024 ^ 3)
  else if suffix = "T" then some 1000000000000
  else if suffix = "Ti" then some (1024 ^ 4)
  else if suffix = "P" then some 1000000000000000
  else if suffix = "Pi" then some (1024 ^ 5)
  else none

/-- The divisor parse of source lines 209-239, producing `divAsked`: `none` when the
format is bad, the amount overflows, or the final divisor is non-finite or zero
(the division-by-zero guard); an unknown suffix keeps the bare amount. -/
def parseDiv (div : String) : Option ℚ :=
  match divSplit (trimList div.toList) with
  | none => none
  | some (amount, suffix) =>
      let divAsked : Option ℚ :=
        if !jsFinite amount then none
        else
          match SCALE_MAP (String.mk suffix) with
          | none => some amount
          | some sc => some (amount * sc)
      match divAsked with
      | none => none
      | some d => if !jsFinite d || d = 0 then none else some d

/-! ## Date-time machinery (source lines 263-299) -/

/-- Days since the epoch of a proleptic-Gregorian civil date (the standard
days-from-civil algorithm, implementing ECMA-262 `MakeDay`); the 1-based month and
the day may lie outside their ranges and roll over exactly as `Date.UTC` does. -/
def daysFromCivil (y m d : ℤ) : ℤ :=
  let ym := y * 12 + (m - 1)
  let y1 := ym.fdiv 12
  let m1 := ym.emod 12 + 1
  let y2 := if m1 ≤ 2 then y1 - 1 else y1
  let era := y2.fdiv 400
  let yoe := y2 - era * 400
  let mp := if m1 > 2 then m1 - 3 else m1 + 9
  let doy := (153 * mp + 2).fdiv 5 + d - 1
  let doe := yoe * 365 + yoe.fdiv 4 - yoe.fdiv 100 + doy
  era * 146097 + doe - 719468

/-- ECMA `Date.UTC(year, month0, day, h, m, s, ms)` (0-based month) in epoch
milliseconds. -/
def dateUTC (y mo0 d h mi s ms : ℤ) : ℤ :=
  daysFromCivil y (mo0 + 1) d * 86400000 + h * 3600000 + mi * 60000 + s * 1000 + ms

/-- Civil date (year, 1-based month, day) of a day number since the epoch (the
standard civil-from-days algorithm, implementing the `Date` UTC getters). -/
def civilFromDays (z0 : ℤ) : ℤ × ℤ × ℤ :=
  let z := z0 + 719468
  let era := z.fdiv 146097
  let doe := z - era * 146097
  let yoe := (doe - doe.fdiv 1460 + doe.fdiv 36524 - doe.fdiv 146096).fdiv 365
  let y := yoe + era * 400
  let doy := doe - (365 * yoe + yoe.fdiv 4 - yoe.fdiv 100)
  let mp := (5 * doy + 2).fdiv 153
  let d := doy - (153 * mp + 2).fdiv 5 + 1
  let m := if mp < 10 then mp + 3 else mp - 9
  (if m ≤ 2 then y + 1 else y, m, d)

/-- The fields matched by the date-time regex of source line 265. -/
structure DtParts where
  yy : ℤ
  mo : ℤ
  dd : ℤ
  timesep : Char
  hh : ℤ
  mi : ℤ
  ss : ℤ
  ms : ℤ
  tzNeg : Bool
  tzH : ℤ
  tzM : ℤ
  tzoffset : List Char

/-- The date-time regex of source line 265,
`/^(\d{4})-([01]\d)-([0123]\d)(T| )([012]\d):([0-5]\d):([0-5]\d)(\.\d{3})([+-]\d{4})$/`,
as a structural parser over the 28-character shape. -/
def dtParse (cs : List Char) : Option DtParts :=
  match cs with
  | [y1, y2, y3, y4, c1, m1, m2, c2, d1, d2, sep, h1, h2, c3, n1, n2, c4, s1, s2,
     dot, x1, x2, x3, sgn, o1, o2, o3, o4] =>
      if ([y1, y2, y3, y4, m2, d2, h2, n2, s2, x1, x2, x3, o1, o2, o3, o4].all
            Char.isDigit)
          && c1 = '-' && c2 = '-' && c3 = ':' && c4 = ':' && dot = '.'
          && (m1 = '0' || m1 = '1')
          && (d1 = '0' || d1 = '1' || d1 = '2' || d1 = '3')
          && (sep = 'T' || sep = ' ')
          && (h1 = '0' || h1 = '1' || h1 = '2')
          && ('0' ≤ n1 && n1 ≤ '5') && ('0' ≤ s1 && s1 ≤ '5')
          && (sgn = '+' || sgn = '-') then
        some ⟨(natOfDigits [y1, y2, y3, y4] : ℤ), (natOfDigits [m1, m2] : ℤ),
          (natOfDigits [d1, d2] : ℤ), sep, (natOfDigits [h1, h2] : ℤ),
          (natOfDigits [n1, n2] : ℤ), (natOfDigits [s1, s2] : ℤ),
          (natOfDigits [x1, x2, x3] : ℤ), sgn = '-',
          (natOfDigits [o1, o2] : ℤ), (natOfDigits [o3, o4] : ℤ),
          [sgn, o1, o2, o3, o4]⟩
      else none
  | _ => none

/-! ## Number-to-string rendering -/

/-- Decimal digit characters of a natural number (no leading zeros; fuel-driven). -/
def natDigitsAux : ℕ → ℕ → List Char
  | 0, _ => []
  | fuel + 1, n =>
      if n = 0 then [] else natDigitsAux fuel (n / 10) ++ [Nat.digitChar (n % 10)]

/-- Decimal string of a natural number. -/
def natStr (n : ℕ) : String :=
  if n = 0 then "0" else String.mk (natDigitsAux (n + 1) n)

/-- JS decimal string of an integer. -/
def intStr (z : ℤ) : String :=
  (if z < 0 then "-" else "") ++ natStr z.natAbs

/-- JS `padStart(2, "0")` of a string. -/
def pad2 (s : String) : String :=
  String.mk (List.replicate (2 - s.toList.length) '0' ++ s.toList)

/-- JS `padStart(3, "0")` of a string. -/
def pad3 (s : String) : String :=
  String.mk (List.replicate (3 - s.toList.length) '0' ++ s.toList)

/-- Decimal expansion digits of a rational in `[0, 1)`: up to `fuel` digits,
stopping at remainder 0. -/
def fracExpand : ℕ → ℚ → List Char
  | 0, _ => []
  | fuel + 1, q =>
      if q = 0 then []
      else Nat.digitChar (⌊q * 10⌋).toNat :: fracExpand fuel (q * 10 - (⌊q * 10⌋ : ℚ))

/-- JS `String(number)`, idealised for exact rationals: the exact decimal expansion
(terminating for every value the modelled claims reach; a 110-digit cap makes the
function total), with the ECMA exponential regimes for magnitudes below `1e-6` or
at least `1e21`. -/
def jsNumToString (q : ℚ) : String :=
  if q = 0 then "0"
  else
    let sgn := if q < 0 then "-" else ""
    let a := |q|
    if a < 1e-6 || 1e21 ≤ a then
      let e := Int.log 10 a
      let m := a / 10 ^ e
      let fr := m - (⌊m⌋ : ℚ)
      sgn ++ natStr (⌊m⌋).toNat ++
        (if fr = 0 then "" else "." ++ String.mk (fracExpand 110 fr)) ++
        "e" ++ (if e < 0 then "-" else "+") ++ natStr e.natAbs
    else
      let ip := ⌊a⌋
      let fp := a - (ip : ℚ)
      sgn ++ natStr ip.toNat ++
        (if fp = 0 then "" else "." ++ String.mk (fracExpand 110 fp))

/-- ECMA `Number.prototype.toExponential(d)` for a nonzero rational, composed with
the three cleanup replaces of source lines 748-750 (strip trailing fraction zeros,
a bare all-zero fraction, and a final `e+0`). -/
def expFixed (q : ℚ) (d : ℕ) : String :=
  if q = 0 then "0"
  else
    let sgn := if q < 0 then "-" else ""
    let a := |q|
    let e0 := Int.log 10 a
    let n0 := ⌊a * 10 ^ ((d : ℤ) - e0) + 1/2⌋
    let e := if n0 ≥ 10 ^ (d + 1) then e0 + 1 else e0
    let n := if n0 ≥ 10 ^ (d + 1) then (10 ^ d : ℤ) else n0
    let digits := natDigitsAux (n.toNat + 1) n.toNat
    let frac := ((digits.drop 1).reverse.dropWhile (fun c => c = '0')).reverse
    sgn ++ String.mk (digits.take 1) ++
      (if frac.isEmpty then "" else "." ++ String.mk frac) ++
      (if e = 0 then ""
       else "e" ++ (if e < 0 then "-" else "+") ++ natStr e.natAbs)

/-- `Number.prototype.toExponential` with its `RangeError` on a fraction-digit
count outside `[0, 100]`, modelled as `none` (the one reachable throw site of the
transform). -/
def jsToExponential (q : ℚ) (d : ℤ) : Option String :=
  if d < 0 || 100 < d then none else some (expFixed q d.toNat)

/-- Claim-side step multiplier, spec section 4.3 step 2 (on the one-decimal-rounded
fractional part): symmetrise `f` and take `clamp(ceil(1/f'), [2,5])`, where the JS
quotient `1/0 = +∞` for `f' = 0` clamps to 5. -/
def stepMultiplier (f : ℚ) : ℤ :=
  let f1 := if f > 0.5 then 1 - f else f
  let f2 := roundTo f1 1
  if f2 = 0 then 5 else min 5 (max 2 ⌈1 / f2⌉)

/-- Claim-side nice-step rounding, spec section 4.3 steps 3-4: truncate the value to
`n` significant figures preserving sign, rescale the cut-off remainder to the 0..10
band, locate the first table border the remainder does not exceed, add the
corresponding middles entry (rescaled back), and clean the sum up to `n+1` figures. -/
def niceStepSpec (value : ℚ) (n mult : ℤ) : ℚ :=
  let magnit := magniTude value
  let sign : ℚ := if value < 0 then -1 else 1
  let truncated := sign * (⌊|value| * 10 ^ (n - magnit - 1)⌋ : ℚ) * 10 ^ (magnit - n + 1)
  let remainder := (|value| - |truncated|) / 10 ^ (magnit - n)
  let zeroLead := |truncated| < 1e-12
  let borders := if zeroLead then BORDERS0 mult else BORDERS1 mult
  let middles := if zeroLead then MIDDLES0 mult else MIDDLES1 mult
  let i := borders.findIdx fun b => decide (remainder ≤ b)
  toPrec (truncated + sign * middles.getD i 0 * 10 ^ (magnit - n)) (n + 1)

/-! ## The per-unit policy switch (source lines 360-646) -/

/-- `normalizeVectorGeneric` (source line 40). -/
def normalizeVectorGeneric : List String := ["µ", "m", "", "k", "M", "G", "T", "P", "E"]

/-- Output of the policy switch: the possibly converted value and unit, the sought
precision, and the normalization family (`none` when normalization is suppressed,
the JS `undefined`).  `scaleSeeked` is omitted from the model: after the switch the
source only ever prints it in the final log line. -/
structure PolicyOut where
  value : ℚ
  unit : String
  precisionSeeked : ℚ
  normalizeVector : Option (List String)

/-- The unit policy switch, source lines 360-646, transcribed case by case; the
`switch` fallthrough chains become shared local continuations.  The default
precision is 2 and the default normalization family is the empty list `[]` (which
is not JS `undefined`: the post-rounding block still runs for it). -/
def unitSwitch (unit_i : String) (value : ℚ) (siAsked : Bool) : PolicyOut :=
  let celsius : ℚ → PolicyOut := fun v =>
    ⟨v, "°C", if |v| < 1 then 0.7 else if |v| < 10 then 1.5 else 2.5, some []⟩
  let kmh : ℚ → PolicyOut := fun v =>
    ⟨v, "km/h", if |v| < 5 then 1 else if |v| < 20 then 1.5 else 2, some []⟩
  let mph : ℚ → PolicyOut := fun v =>
    let p : ℚ := if |v| < 10 then 1.5 else if |v| < 30 then 1.3 else 1.5
    if siAsked then ⟨v * 1.609344, "km/h", p, some []⟩ else ⟨v, "mph", p, some []⟩
  let mm : ℚ → PolicyOut := fun v =>
    ⟨v, "mm", if isWithin v [(0, 80)] then 1.7 else 2, some []⟩
  let cm : ℚ → PolicyOut := fun v => mm (v * 10)
  let inch : ℚ → PolicyOut := fun v =>
    if siAsked then cm (v * 2.54) else ⟨v, "in", 2, some []⟩
  let kg : ℚ → PolicyOut := fun v =>
    let av := |v|
    ⟨v, "kg", if av < 10 then 1.8 else if av < 100 then 2.8 else if av < 200 then 3.8
      else 3, some []⟩
  let hPaGroup : ℚ → String → PolicyOut := fun v0 u0 =>
    let vu : ℚ × String :=
      if u0 = "psi" then (v0 * 68.94757, "hPa")
      else if u0 = "inHg" then (v0 * 33.86386, "hPa")
      else if u0 = "mmHg" then (v0 * 1.33322, "hPa")
      else (v0, u0)
    ⟨vu.1, vu.2,
      if isWithin vu.1 [(800, 1000)] then 3.5
      else if isWithin vu.1 [(1000, 1050)] then 4.5 else 3, some []⟩
  let kwh : ℚ → String → Option (List String) → PolicyOut := fun v u nv =>
    let p0 : ℚ := (magniTude v : ℤ) + 1.5
    let p1 := if u = "Wh" then p0 - 3 else p0
    ⟨v, u, max 1.5 p1, nv⟩
  let elec2 : ℚ → String → Option (List String) → PolicyOut := fun v u nv =>
    ⟨v, u, 2, nv⟩
  let kW : ℚ → String → Option (List String) → PolicyOut := fun v u nv =>
    ⟨v, u, if |v| < 100 then 1.5 else 2, nv⟩
  let volume : ℚ → String → PolicyOut := fun v u =>
    ⟨v, u, if u = "l" && isWithin v [(8, 300)] then 3 else 2.8, some []⟩
  let km : ℚ → String → PolicyOut := fun v u => ⟨v, u, 2.5, some []⟩
  let percent : ℚ → PolicyOut := fun v =>
    ⟨v, "%", if isWithin v [(0, 4), (87, 102)] then 1.2 else 1.5, none⟩
  match unit_i with
  | "°F" =>
      if !siAsked then
        ⟨value, "°F",
          if |value| < 3 then 1.3 else if isWithin value [(190, 215)] then 3 else 2.5,
          some []⟩
      else celsius ((value - 32) * (5 / 9))
  | "°C" => celsius value
  | "K" =>
      let p0 : ℚ := max (-1) ((magniTude value : ℤ) : ℚ)
      let p1 := clamp p0 1 3
      ⟨value, "K",
        p1 + (if isWithin value [(0, 10), (273, 2), (273 + 98, 3)] then 0.7 else 0),
        some []⟩
  | "kn" => mph (value * 1.15078)
  | "mph" => mph value
  | "m/s" => kmh (value * 3.6)
  | "km/h" => kmh value
  | "in/h" =>
      if siAsked then ⟨value * 25.4, "mm/h", 2, some []⟩ else ⟨value, "in/h", 2, some []⟩
  | "yd" => inch (value * 3 * 12)
  | "ft" => inch (value * 12)
  | "in" => inch value
  | "cm" => cm value
  | "mm" => mm value
  | "m" =>
      ⟨value, "m", if isWithin value [(0, 0.08)] then 1.5 else 3,
        some ["µ", "m", "", "k"]⟩
  | "h" => ⟨value, "h", 99, some []⟩
  | "min" =>
      ⟨value, "min",
        ((magniTude value : ℤ) : ℚ) + 1 - (if |value| > 12 * 60 then 1 else 0),
        some []⟩
  | "s" =>
      if |value| < 1000 then ⟨value, "s", 1.5, some ["µ", "m", ""]⟩
      else ⟨value, "s", 99, some ["µ", "m", ""]⟩
  | "lbs" =>
      if !siAsked then
        ⟨value, "lbs",
          if |value| < 10 then 1.8 else if |value| < 100 then 2.8
          else if |value| < 400 then 3.8 else 3, some []⟩
      else kg (value * 0.4536)
  | "kg" => kg value
  | "psi" =>
      if !siAsked then
        ⟨value, "psi", if isWithin value [(14.7, 0.7)] then 3.5 else 3, some []⟩
      else hPaGroup value "psi"
  | "inHg" =>
      if !siAsked then
        ⟨value, "inHg", if isWithin value [(30, 1.5)] then 3.5 else 3, some []⟩
      else hPaGroup value "inHg"
  | "mmHg" =>
      if !siAsked then
        ⟨value, "mmHg", if isWithin value [(750, 770)] then 3.5 else 3, some []⟩
      else hPaGroup value "mmHg"
  | "mbar" => hPaGroup value "mbar"
  | "hPa" => hPaGroup value "hPa"
  | "Pa" =>
      ⟨value, "Pa",
        if isWithin value [(80000, 100000)] then 3.5
        else if isWithin value [(100000, 105000)] then 4.5 else 3, some []⟩
  | "bar" =>
      ⟨value, "bar",
        if isWithin value [(0.8, 1)] then 3.5
        else if isWithin value [(1, 1.05)] then 4.5 else 3, some []⟩
  | "Wh" => kwh value "Wh" (some normalizeVectorGeneric)
  | "VAh" => kwh value "VAh" (some normalizeVectorGeneric)
  | "kWh" => kwh value "kWh" (some [])
  | "J" => ⟨value, "J", 2, some normalizeVectorGeneric⟩
  | "cal" => ⟨value, "cal", 2, some normalizeVectorGeneric⟩
  | "rpm" => ⟨value, "rpm", 3, some []⟩
  | "Hz" =>
      ⟨value, "Hz",
        if isWithin value [(50, 0.3), (60, 0.2), (400, 10)] then 2.8 else 2,
        some normalizeVectorGeneric⟩
  | "A" => elec2 value "A" (some normalizeVectorGeneric)
  | "Ah" => elec2 value "Ah" (some normalizeVectorGeneric)
  | "Ω" => elec2 value "Ω" (some normalizeVectorGeneric)
  | "kA" => elec2 value "kA" (some [])
  | "mA" => elec2 value "mA" (some [])
  | "µA" => elec2 value "µA" (some [])
  | "nA" => elec2 value "nA" (some [])
  | "mAh" => elec2 value "mAh" (some [])
  | "kAh" => elec2 value "kAh" (some [])
  | "mS" => elec2 value "mS" (some [])
  | "µS" => elec2 value "µS" (some [])
  | "S" => elec2 value "S" (some [])
  | "S/m" => elec2 value "S/m" (some [])
  | "C" => elec2 value "C" (some [])
  | "kΩ" => elec2 value "kΩ" (some [])
  | "MΩ" => elec2 value "MΩ" (some [])
  | "W" => kW value "W" (some normalizeVectorGeneric)
  | "kW" => kW value "kW" (some [])
  | "MW" => kW value "MW" (some [])
  | "dBm" => kW value "dBm" (some [])
  | "W/m²" => ⟨value, "W/m²", if |value| < 10 then 1.5 else 1.8, some []⟩
  | "µW/cm²" => ⟨value, "µW/cm²", if |value| < 10 then 1.5 else 1.8, some []⟩
  | "V" =>
      ⟨value, "V",
        if isWithin value [(110, 5), (230, 20), (400, 40)] then 2.8 else 2.7,
        some normalizeVectorGeneric⟩
  | "gal" =>
      if !siAsked then ⟨value, "gal", 2.8, some []⟩
      else volume (value * 3.7854) "l"
  | "gal/min" =>
      if !siAsked then ⟨value, "gal/min", 2.8, some []⟩
      else volume (value * 3.7854) "l/min"
  | "l" => volume value "l"
  | "l/min" => volume value "l/min"
  | "m³" => volume value "m³"
  | "m³/s" => volume value "m³/s"
  | "m³/min" => volume value "m³/min"
  | "m³/h" => volume value "m³/h"
  | "m³/d" => volume value "m³/d"
  | "mi" =>
      if siAsked then km (value * 1.609344) "km" else km value "mi"
  | "km" => km value "km"
  | "mg/m³" => ⟨value, "mg/m³", 2.5, some []⟩
  | "µg/m³" => ⟨value, "µg/m³", 2.5, some []⟩
  | "Mbit/s" => ⟨value, "Mbit/s", 2, none⟩
  | "kbit/s" => ⟨value, "kbit/s", 2, none⟩
  | "bit/s" => ⟨value, "bit/s", 2, none⟩
  | "Mbit" => ⟨value, "Mbit", 2, none⟩
  | "kbit" => ⟨value, "kbit", 2, none⟩
  | "bit" => ⟨value, "bit", 2, none⟩
  | "TiB" => ⟨value, "TiB", 2, none⟩
  | "GiB" => ⟨value, "GiB", 2, none⟩
  | "MiB" => ⟨value, "MiB", 2, none⟩
  | "KiB" => ⟨value, "KiB", 2, none⟩
  | "B" => ⟨value, "B", 2, none⟩
  | "ppm" => ⟨value, "ppm", 2.5, some []⟩
  | "ppb" => ⟨value, "ppb", 2.5, some []⟩
  | "ppt" => ⟨value, "ppt", 2.5, some []⟩
  | "dB" => ⟨value, "dB", 2.5, some []⟩
  | "mol" => ⟨value, "mol", 2.5, some []⟩
  | "kat" => ⟨value, "kat", 2.5, some []⟩
  | "percent" => percent value
  | "%" => percent value
  | "°" => ⟨value, "°", 2, none⟩
  | u => ⟨value, u, 2, some []⟩

/-! ## The main transform (source lines 118-776) -/

/-- The IEC byte-prefix pre-multiplication of source line 353, applied when the
input unit is being stripped. -/
def iecFactor (u : String) : ℚ :=
  if u = "KiB" then 1024
  else if u = "MiB" then 1024 ^ 2
  else if u = "GiB" then 1024 ^ 3
  else if u = "TiB" then 1024 ^ 4
  else if u = "PiB" then 1024 ^ 5
  else 1

/-- `Number.EPSILON`, the value added in testing mode (source line 754). -/
def jsEpsilon : ℚ := 1 / 2 ^ 52

/-- Helper `fmt` of source line 167: the value string, then a space and the unit
when the unit string is nonempty. -/
def fmt (s u : String) : String := s ++ (if u = "" then "" else " " ++ u)

/-- JS `Array.prototype.indexOf` on a string list: the index, or -1 when absent. -/
def jsIndexOf (l : List String) (s : String) : ℤ :=
  match l with
  | [] => -1
  | a :: t =>
      if a = s then 0
      else
        let r := jsIndexOf t s
        if r = -1 then -1 else r + 1

/-- The date-time branch, source lines 265-298: convert the wall-clock fields and
the fixed offset to an absolute instant, round that instant to the granularity
selected by the clamped scale level (default 3 = seconds), convert back with the
same offset and re-render; fields below the level print as zeros and the
millisecond field is only printed at level 4.  A non-integer level indexes JS
`undefined` and produces a NaN garbage string; that unreachable-by-claims path is
modelled coarsely by a zero rounding unit. -/
def dtRender (p : DtParts) (scaleAsked0 : Option ℚ) : String :=
  let scaleA := clamp (scaleAsked0.getD 3) 0 4
  let offsetMinutes : ℤ := (if p.tzNeg then -1 else 1) * (p.tzH * 60 + p.tzM)
  let localUtcMs := dateUTC p.yy (p.mo - 1) p.dd p.hh p.mi p.ss p.ms
  let utcMs : ℚ := (localUtcMs : ℚ) - (offsetMinutes : ℚ) * 60 * 1000
  let unitMs : ℚ :=
    if scaleA = 0 then 86400000 else if scaleA = 1 then 3600000
    else if scaleA = 2 then 60000 else if scaleA = 3 then 1000
    else if scaleA = 4 then 1 else 0
  let roundedUtc : ℚ := (jsRound (utcMs / unitMs) : ℚ) * unitMs
  let localMs : ℤ := ⌊roundedUtc + (offsetMinutes : ℚ) * 60 * 1000⌋
  let days := localMs.fdiv 86400000
  let rem := localMs.emod 86400000
  let ymd := civilFromDays days
  intStr ymd.1 ++ "-" ++ pad2 (intStr ymd.2.1) ++ "-" ++ pad2 (intStr ymd.2.2) ++
    String.mk [p.timesep] ++
    (if scaleA < 1 then "00" else pad2 (intStr (rem.fdiv 3600000))) ++ ":" ++
    (if scaleA < 2 then "00" else pad2 (intStr ((rem.emod 3600000).fdiv 60000))) ++ ":" ++
    (if scaleA < 3 then "00" else pad2 (intStr ((rem.emod 60000).fdiv 1000))) ++
    (if scaleA < 4 then "" else "." ++ pad3 (intStr (rem.emod 1000))) ++
    String.mk p.tzoffset

/-- The caller-supplied options record (spec section 6).  The numeric options are
taken as rationals (`numOrUndef`/`parseFloat` of a well-formed numeric option is
the identity in the exact model) and the boolean options as booleans (`isTrue` of
a boolean is the identity, source line 833).  `id` only decorates log lines and is
omitted. -/
structure Opts where
  verbose : Option Bool
  testing : Option Bool
  prec : Option ℚ
  precision : Option ℚ
  scale : Option ℚ
  si : Option Bool
  unit : Option String
  div : Option String
  mult : Option ℚ
  skew : Option ℚ
  flicker : Option Bool

/-- An options record with every option absent. -/
def noOpts : Opts :=
  ⟨none, none, none, none, none, none, none, none, none, none, none⟩

/-- The body of `significantTransform`, parameterised by exactly the options that
can influence the returned string.  `verbose` only gates log output and is not a
parameter; `flicker` adds the noise `(round(random()*100)/100) * 1e-4 / denom`,
nondeterministic and idealised at its minimum 0, hence also not a parameter; the
wall-clock-gated testing return of the original value (source line 770) is not
modelled (see the header).  `none` models the one reachable JS exception
(`RangeError` from `toExponential`). -/
def significantCore (i : String) (testingO : Option Bool) (precisionO precO scaleO : Option ℚ)
    (siO : Option Bool) (unitO divO : Option String) (multO skewO : Option ℚ) :
    Option String :=
  let input := trimList i.toList
  let testingAsked := testingO.getD false
  let siAsked := siO.getD true
  let precisionAsked : Option ℚ := match precisionO, precO with
    | some p, _ => some p
    | none, some p => some p
    | none, none => none
  let skewAsked : Option ℚ := skewO
  let multAsked : Option ℚ := multO
  -- the div block (source line 204) also requests unit removal; the unit block
  -- (source line 247) runs later and overrides it
  let divPair : Option ℚ × Option String :=
    match divO with
    | none => (none, none)
    | some d => (parseDiv d, some "")
  let divAsked := divPair.1
  let unitAsked : Option String :=
    match unitO with
    | some u => some u
    | none => divPair.2
  match dtParse input with
  | some parts => some (dtRender parts scaleO)
  | none =>
    match parseNumTok input with
    | none =>
        -- the NaN branch (source line 308): without an interval match, return the
        -- (trimmed) input verbatim (line 313); with one, the midpoint is computed
        -- (line 315) but the anchored mantissa re-match of line 337 is the same
        -- token grammar that `parseFloat` just failed, so line 339 returns the
        -- (trimmed) input verbatim as well
        match intervalSearch input with
        | none => some (String.mk input)
        | some _ =>
            match parseNumTok input with
            | none => some (String.mk input)
            | some _ =>
                -- dead branch: the enclosing match already took `none` for the
                -- same parse; the verbatim return mirrors source line 339
                some (String.mk input)
    | some tok =>
        let value0 := tokVal tok
        let unit_i0 : String :=
          match unitOf input with
          | some u => String.mk u
          | none => ""
        let precisionFound := precisionFoundOf tok
        -- unit forcing (source lines 351-357), with the IEC pre-multiplication
        let vu : ℚ × String :=
          match unitAsked with
          | none => (value0, unit_i0)
          | some ua =>
              ((if ua = "" || ua = "." then value0 * iecFactor unit_i0 else value0),
               if ua = "." then "" else ua)
        let po := unitSwitch vu.2 vu.1 siAsked
        let precisionSeeked0 : ℚ :=
          match precisionAsked with
          | none => po.precisionSeeked
          | some pa => if pa = 0 then po.precisionSeeked else pa
        let finalUnit := po.unit
        let value2 := po.value + skewAsked.getD 0
        if po.unit = "°" then
          -- the angle sector branch (source lines 663-674)
          let value3 := jsMod (jsMod value2 360 + 360) 360
          let angledivider : ℚ := 90 / ((⌊precisionSeeked0⌋ : ℤ) : ℚ)
          let v := roundTo (value3 / angledivider) 5
          let newValue :=
            if precisionSeeked0 = 1 ∨ precisionSeeked0 = 2 then
              (⌊v + 0.5⌋ : ℚ) * angledivider
            else (⌊v⌋ : ℚ) * angledivider + angledivider / 2
          some (fmt (jsNumToString (jsMod newValue 360)) finalUnit)
        else if value2 = 0 then
          -- source line 675: a zero value skips the whole rounding block and the
          -- initial `newValue = 0` is formatted
          some (fmt (jsNumToString 0) finalUnit)
        else
          let value4 := match divAsked with | some d => value2 / d | none => value2
          let value5 := match multAsked with | some m => value4 * m | none => value4
          let newValue := sigRound value5 precisionSeeked0 precisionFound
          let n : ℤ := ⌊precisionSeeked0⌋
          let fr := roundTo (precisionSeeked0 - (n : ℚ)) 1
          let scale3 := Int.tdiv (magniTude newValue) 3
          match po.normalizeVector with
          | some nvec =>
            if scale3 ≠ 0 then
              -- the magnitude normalization and scientific re-render
              -- (source lines 728-751)
              let baseUnitIndex := jsIndexOf nvec ""
              let idx := scale3 + baseUnitIndex
              let hit : Option String :=
                if 0 ≤ idx then nvec.get? idx.toNat else none
              let resc : ℚ × String :=
                match hit with
                | some pre =>
                    if pre = "" then (newValue, finalUnit)
                    else (newValue / 10 ^ (3 * scale3), pre ++ po.unit)
                | none => (newValue, finalUnit)
              let d : ℤ := jsTrunc (min precisionFound ((⌈(n : ℚ) + fr⌉ : ℤ) : ℚ) - 1)
              match jsToExponential resc.1 d with
              | none => none
              | some s => some (fmt s resc.2)
            else
              let nv2 := newValue + (if testingAsked then jsEpsilon else 0)
              some (fmt (jsNumToString nv2) finalUnit)
          | none =>
              let nv2 := newValue + (if testingAsked then jsEpsilon else 0)
              some (fmt (jsNumToString nv2) finalUnit)

/-- `significantTransform(i, opts)`, source line 118: the transformation entry
point.  Only the listed options can influence the returned string; `verbose` and
`flicker` are consumed by `significantCore`'s omitted logging and noise (see its
doc comment). -/
def significantTransform (i : String) (opts : Opts) : Option String :=
  significantCore i opts.testing opts.precision opts.prec opts.scale opts.si
    opts.unit opts.div opts.mult opts.skew

/-! ## Option-record builders and claim-side specification functions -/

/-- An options record carrying only the testing flag. -/
def optsTesting (b : Bool) : Opts :=
  ⟨none, some b, none, none, none, none, none, none, none, none, none⟩

/-- An options record carrying only the scale level. -/
def optsScale (s : ℚ) : Opts :=
  ⟨none, none, none, none, some s, none, none, none, none, none, none⟩

/-- An options record carrying only the precision. -/
def optsPrecision (p : ℚ) : Opts :=
  ⟨none, none, none, some p, none, none, none, none, none, none, none⟩

/-- Replace the verbose flag of an options record. -/
def withVerbose (o : Opts) (b : Option Bool) : Opts :=
  ⟨b, o.testing, o.prec, o.precision, o.scale, o.si, o.unit, o.div, o.mult, o.skew,
   o.flicker⟩

/-- Claim-side angle sector rounding (spec section 4.6, amended with the 5-decimal
pre-rounding `roundTo(value/sectorWidth, 5)` that the code applies before the
sector selection): normalize into `[0, 360)`, use sectors of width `90/⌊p⌋`,
nearest-sector rounding for `p = 1` or `p = 2`, mid-sector rounding otherwise, and
re-normalize by the final `% 360`. -/
def angleSpec (v p : ℚ) : ℚ :=
  let value := jsMod (jsMod v 360 + 360) 360
  let w : ℚ := 90 / ((⌊p⌋ : ℤ) : ℚ)
  let vv := roundTo (value / w) 5
  jsMod (if p = 1 ∨ p = 2 then (⌊vv + 0.5⌋ : ℚ) * w else (⌊vv⌋ : ℚ) * w + w / 2) 360

/-- Proof-side abbreviation: the middles entry the border scan selects on the
nonzero-lead tables (used to state and prove properties of the nice-step path). -/
def pickMiddle (m : ℤ) (x : ℚ) : ℚ :=
  (MIDDLES1 m).getD ((BORDERS1 m).findIdx fun b => decide (x ≤ b)) 0

/-- Spec-modelled fractional rounding stage exactly as claim C5 words it. -/
def sigRoundClaimC5 (value p found : ℚ) : ℚ :=
  let n : ℤ := ⌊p⌋
  let f := p - (n : ℚ)
  if 0 < f ∧ (n : ℚ) < found then
    let fs := if f > 0.5 then 1 - f else f
    niceStepSpec value n (min 5 (max 2 ⌈1 / fs⌉))
  else toPrec value n

/-- Spec-modelled angle rounding exactly as claim C7 words it. -/
def angleClaimSpec (v p : ℚ) : ℚ :=
  let value := jsMod (jsMod v 360 + 360) 360
  let w : ℚ := 90 / ((⌊p⌋ : ℤ) : ℚ)
  jsMod (if p = 1 ∨ p = 2 then (⌊value / w + 0.5⌋ : ℚ) * w
    else (⌊value / w⌋ : ℚ) * w + w / 2) 360

/-! ## Lemmas: the magnitude function -/

theorem natLog10_eq {fuel n : ℕ} (h : n ≤ fuel) : natLog10 fuel n = Nat.log 10 n := by
  induction fuel generalizing n with
  | zero =>
    interval_cases n
    simp [natLog10]
  | succ fuel ih =>
    by_cases h10 : n < 10
    · rw [natLog10, if_pos h10, Nat.log_of_lt h10]
    · push_neg at h10
      have hlt : n / 10 < n := Nat.div_lt_self (by omega) (by norm_num)
      rw [natLog10, if_neg (by omega), ih (by omega),
        Nat.log_of_one_lt_of_le (by norm_num) h10]

theorem natClog10_eq {fuel n : ℕ} (h : n ≤ fuel) : natClog10 fuel n = Nat.clog 10 n := by
  induction fuel generalizing n with
  | zero =>
    interval_cases n
    simp [natClog10]
  | succ fuel ih =>
    by_cases h1 : n ≤ 1
    · rw [natClog10, if_pos h1, Nat.clog_of_right_le_one h1]
    · push_neg at h1
      rw [natClog10, if_neg (by omega), ih (show (n + 9) / 10 ≤ fuel by omega)]
      have h2 : Nat.clog 10 n = Nat.clog 10 ((n + 10 - 1) / 10) + 1 :=
        Nat.clog_of_two_le (by norm_num) (by omega)
      have h3 : n + 10 - 1 = n + 9 := by omega
      rw [h2, h3]

theorem magniTude_eq_log (x : ℚ) :
    magniTude x = if x = 0 then 0 else Int.log 10 |x| := by
  simp only [magniTude]
  by_cases hx : x = 0
  · simp [hx]
  · rw [if_neg hx, if_neg hx]
    by_cases h1 : 1 ≤ |x|
    · rw [if_pos h1, natLog10_eq le_rfl, Int.log_of_one_le_right _ h1, Int.floor_toNat]
    · push_neg at h1
      rw [if_neg (not_le.mpr h1), natClog10_eq le_rfl,
        Int.log_of_right_le_one _ h1.le, Int.ceil_toNat]

theorem magniTude_spec {x : ℚ} (hx : x ≠ 0) :
    (10 : ℚ) ^ magniTude x ≤ |x| ∧ |x| < 10 ^ (magniTude x + 1) := by
  have h : 0 < |x| := abs_pos.mpr hx
  rw [magniTude_eq_log]
  rw [if_neg hx]
  refine ⟨?_, ?_⟩
  · have := Int.zpow_log_le_self (show (1 : ℕ) < 10 by norm_num) h
    simpa using this
  · have := Int.lt_zpow_succ_log_self (show (1 : ℕ) < 10 by norm_num) |x|
    simpa using this

theorem magniTude_eq_of {x : ℚ} {z : ℤ} (hx : x ≠ 0)
    (h1 : (10 : ℚ) ^ z ≤ |x|) (h2 : |x| < 10 ^ (z + 1)) : magniTude x = z := by
  have h : 0 < |x| := abs_pos.mpr hx
  rw [magniTude_eq_log]
  rw [if_neg hx]
  have e1 : z ≤ Int.log 10 |x| := by
    rw [← Int.zpow_le_iff_le_log (show (1 : ℕ) < 10 by norm_num) h]
    simpa using h1
  have e2 : Int.log 10 |x| < z + 1 := by
    rw [← Int.lt_zpow_iff_log_lt (show (1 : ℕ) < 10 by norm_num) h]
    simpa using h2
  omega

theorem magniTude_eq_floor_logb {x : ℚ} (hx : x ≠ 0) :
    magniTude x = ⌊Real.logb 10 (|x| : ℝ)⌋ := by
  have h : 0 < |x| := abs_pos.mpr hx
  have h' : (0 : ℝ) < ((|x| : ℚ) : ℝ) := by exact_mod_cast h
  have hfl : ⌊Real.logb 10 ((|x| : ℚ) : ℝ)⌋ = Int.log 10 ((|x| : ℚ) : ℝ) := by
    have := @Real.floor_logb_natCast 10 ((|x| : ℚ) : ℝ) h'.le
    simpa using this
  have hcast : Int.log 10 ((|x| : ℚ) : ℝ) = Int.log 10 |x| := by
    apply le_antisymm
    · have hq : (10 : ℚ) ^ (Int.log 10 ((|x| : ℚ) : ℝ)) ≤ |x| := by
        have hr : ((10 : ℕ) : ℝ) ^ (Int.log 10 ((|x| : ℚ) : ℝ)) ≤ ((|x| : ℚ) : ℝ) :=
          Int.zpow_log_le_self (show (1 : ℕ) < 10 by norm_num) h'
        have h2 : ((10 : ℚ) : ℝ) ^ (Int.log 10 ((|x| : ℚ) : ℝ)) ≤ ((|x| : ℚ) : ℝ) := by
          simpa using hr
        exact_mod_cast h2
      rw [← Int.zpow_le_iff_le_log (show (1 : ℕ) < 10 by norm_num) h]
      simpa using hq
    · have hq : (10 : ℚ) ^ (Int.log 10 |x|) ≤ |x| := by
        have := Int.zpow_log_le_self (show (1 : ℕ) < 10 by norm_num) h
        simpa using this
      rw [← Int.zpow_le_iff_le_log (show (1 : ℕ) < 10 by norm_num) h']
      have hc : (((10 : ℚ) ^ (Int.log 10 |x|) : ℚ) : ℝ) ≤ ((|x| : ℚ) : ℝ) :=
        Rat.cast_le.mpr hq
      rw [Rat.cast_zpow] at hc
      simpa using hc
  rw [magniTude_eq_log]
  rw [show |(x : ℝ)| = ((|x| : ℚ) : ℝ) from (Rat.cast_abs x).symm, if_neg hx, hfl, hcast]

/-! ## Lemmas: rounding -/

theorem jsRound_intCast (m : ℤ) : jsRound (m : ℚ) = m := by
  unfold jsRound
  rw [add_comm, Int.floor_add_int]
  norm_num

theorem le_jsRound {q : ℚ} {A : ℤ} (h : (A : ℚ) ≤ q) : A ≤ jsRound q := by
  unfold jsRound
  rw [Int.le_floor]
  linarith

theorem jsRound_le {q : ℚ} {B : ℤ} (h : q < (B : ℚ) + 1/2) : jsRound q ≤ B := by
  unfold jsRound
  rw [Int.floor_le_iff]
  linarith

theorem toPrec_repr {x : ℚ} (hx : x ≠ 0) (n : ℤ) :
    toPrec x n =
      (jsRound (x * 10 ^ (n - magniTude x - 1)) : ℚ) * 10 ^ (magniTude x - n + 1) := by
  unfold toPrec
  rw [if_neg hx]
  have he : -(n - magniTude x - 1) = magniTude x - n + 1 := by ring
  rw [div_eq_mul_inv, ← zpow_neg, he]

theorem zpow_int_cast_q (e : ℤ) (he : 0 ≤ e) :
    (((10 : ℤ) ^ e.toNat : ℤ) : ℚ) = (10 : ℚ) ^ e := by
  rw [Int.cast_pow]
  norm_num
  rw [← zpow_natCast, Int.toNat_of_nonneg he]

theorem toPrec_round_bounds {x : ℚ} (hx : x ≠ 0) {n : ℤ} (hn : 1 ≤ n) :
    (10 : ℚ) ^ (n - 1) ≤ |(jsRound (x * 10 ^ (n - magniTude x - 1)) : ℚ)| ∧
      |(jsRound (x * 10 ^ (n - magniTude x - 1)) : ℚ)| ≤ 10 ^ n ∧
      jsRound (x * 10 ^ (n - magniTude x - 1)) ≠ 0 := by
  obtain ⟨hlo, hhi⟩ := magniTude_spec hx
  set mg := magniTude x with hmg
  have hp : (0 : ℚ) < 10 ^ (n - mg - 1) := by positivity
  have habs : |x * 10 ^ (n - mg - 1)| = |x| * 10 ^ (n - mg - 1) := by
    rw [abs_mul, abs_of_pos hp]
  have htlo : (10 : ℚ) ^ (n - 1) ≤ |x * 10 ^ (n - mg - 1)| := by
    rw [habs]
    calc (10 : ℚ) ^ (n - 1) = 10 ^ mg * 10 ^ (n - mg - 1) := by
          rw [← zpow_add₀ (by norm_num : (10 : ℚ) ≠ 0)]
          ring_nf
      _ ≤ |x| * 10 ^ (n - mg - 1) := by
          exact mul_le_mul_of_nonneg_right hlo hp.le
  have hthi : |x * 10 ^ (n - mg - 1)| < 10 ^ n := by
    rw [habs]
    calc |x| * 10 ^ (n - mg - 1) < 10 ^ (mg + 1) * 10 ^ (n - mg - 1) := by
          exact mul_lt_mul_of_pos_right hhi hp
      _ = 10 ^ n := by
          rw [← zpow_add₀ (by norm_num : (10 : ℚ) ≠ 0)]
          ring_nf
  set t := x * 10 ^ (n - mg - 1) with ht
  set A : ℤ := (10 : ℤ) ^ (n - 1).toNat with hAdef
  set B : ℤ := (10 : ℤ) ^ n.toNat with hBdef
  have hA : ((A : ℤ) : ℚ) = (10 : ℚ) ^ (n - 1) := zpow_int_cast_q (n - 1) (by omega)
  have hB : ((B : ℤ) : ℚ) = (10 : ℚ) ^ n := zpow_int_cast_q n (by omega)
  have hApos : (0 : ℤ) < A := by positivity
  rcases lt_trichotomy x 0 with hneg | hzero | hpos
  · -- negative value: t lies in (-10^n, -10^(n-1)]
    have htneg : t < 0 := mul_neg_of_neg_of_pos hneg hp
    have habs' : |t| = -t := abs_of_neg htneg
    have h1 : t ≤ -((10 : ℚ) ^ (n - 1)) := by
      rw [habs'] at htlo; linarith
    have h2 : -((10 : ℚ) ^ n) < t := by
      rw [habs'] at hthi; linarith
    have hub : jsRound t ≤ -A := by
      apply jsRound_le
      rw [Int.cast_neg, hA]
      linarith
    have hlb : -B ≤ jsRound t := by
      apply le_jsRound
      rw [Int.cast_neg, hB]
      linarith
    have hrneg : jsRound t < 0 := by linarith
    have habsr : |(jsRound t : ℚ)| = -(jsRound t : ℚ) := by
      apply abs_of_neg
      exact_mod_cast hrneg
    refine ⟨?_, ?_, by omega⟩
    · rw [habsr, ← hA]
      have : (jsRound t : ℚ) ≤ ((-A : ℤ) : ℚ) := by exact_mod_cast hub
      rw [Int.cast_neg] at this
      linarith
    · rw [habsr, ← hB]
      have : (((-B : ℤ)) : ℚ) ≤ (jsRound t : ℚ) := by exact_mod_cast hlb
      rw [Int.cast_neg] at this
      linarith
  · exact absurd hzero hx
  · -- positive value: t lies in [10^(n-1), 10^n)
    have htpos : 0 < t := mul_pos hpos hp
    have habs' : |t| = t := abs_of_pos htpos
    have h1 : (10 : ℚ) ^ (n - 1) ≤ t := by rw [habs'] at htlo; exact htlo
    have h2 : t < (10 : ℚ) ^ n := by rw [habs'] at hthi; exact hthi
    have hlb : A ≤ jsRound t := by
      apply le_jsRound
      rw [hA]
      exact h1
    have hub : jsRound t ≤ B := by
      apply jsRound_le
      rw [hB]
      linarith
    have hrpos : 0 < jsRound t := by linarith
    have habsr : |(jsRound t : ℚ)| = (jsRound t : ℚ) := by
      apply abs_of_pos
      exact_mod_cast hrpos
    refine ⟨?_, ?_, by omega⟩
    · rw [habsr, ← hA]
      exact_mod_cast hlb
    · rw [habsr, ← hB]
      exact_mod_cast hub

theorem toPrec_exact {r k n : ℤ} (hn : 1 ≤ n) (hr : r ≠ 0)
    (hlo : (10 : ℚ) ^ (n - 1) ≤ |(r : ℚ)|) (hhi : |(r : ℚ)| ≤ 10 ^ n) :
    toPrec ((r : ℚ) * 10 ^ k) n = (r : ℚ) * 10 ^ k := by
  have h10 : (10 : ℚ) ≠ 0 := by norm_num
  have hrq : (r : ℚ) ≠ 0 := Int.cast_ne_zero.mpr hr
  have hkpos : (0 : ℚ) < 10 ^ k := by positivity
  have hx : (r : ℚ) * 10 ^ k ≠ 0 := mul_ne_zero hrq (zpow_ne_zero k h10)
  have habs : |(r : ℚ) * 10 ^ k| = |(r : ℚ)| * 10 ^ k := by
    rw [abs_mul, abs_of_pos hkpos]
  rcases lt_or_eq_of_le hhi with hlt | heq
  · have hmag : magniTude ((r : ℚ) * 10 ^ k) = n - 1 + k := by
      apply magniTude_eq_of hx
      · rw [habs]
        calc (10 : ℚ) ^ (n - 1 + k) = 10 ^ (n - 1) * 10 ^ k := by
              rw [← zpow_add₀ h10]
          _ ≤ |(r : ℚ)| * 10 ^ k := mul_le_mul_of_nonneg_right hlo hkpos.le
      · rw [habs]
        calc |(r : ℚ)| * 10 ^ k < 10 ^ n * 10 ^ k := mul_lt_mul_of_pos_right hlt hkpos
          _ = 10 ^ (n - 1 + k + 1) := by
              rw [← zpow_add₀ h10]
              ring_nf
    rw [toPrec_repr hx n, hmag]
    have he1 : n - (n - 1 + k) - 1 = -k := by ring
    rw [he1]
    have hcancel : (r : ℚ) * 10 ^ k * 10 ^ (-k) = ((r : ℤ) : ℚ) := by
      rw [mul_assoc, ← zpow_add₀ h10]
      simp
    rw [hcancel, jsRound_intCast]
    have he2 : n - 1 + k - n + 1 = k := by ring
    rw [he2]
  · have hmag : magniTude ((r : ℚ) * 10 ^ k) = n + k := by
      apply magniTude_eq_of hx
      · rw [habs, heq, ← zpow_add₀ h10]
      · rw [habs, heq, ← zpow_add₀ h10]
        apply zpow_lt_zpow_right₀ (by norm_num : (1 : ℚ) < 10)
        omega
    have hBq : (((10 : ℤ) ^ n.toNat : ℤ) : ℚ) = (10 : ℚ) ^ n :=
      zpow_int_cast_q n (by omega)
    have habsr : |r| = 10 ^ n.toNat := by
      have hcq : ((|r| : ℤ) : ℚ) = (((10 : ℤ) ^ n.toNat : ℤ) : ℚ) := by
        rw [Int.cast_abs, hBq, heq]
      exact_mod_cast hcq
    have hdvd : (10 : ℤ) ∣ r := by
      have hd : (10 : ℤ) ∣ |r| := by
        rw [habsr]
        exact dvd_pow_self 10 (by omega : n.toNat ≠ 0)
      exact (dvd_abs 10 r).mp hd
    obtain ⟨r10, hr10⟩ := hdvd
    rw [toPrec_repr hx n, hmag]
    have he1 : n - (n + k) - 1 = -(k + 1) := by ring
    rw [he1]
    have hcancel : (r : ℚ) * 10 ^ k * 10 ^ (-(k + 1)) = ((r10 : ℤ) : ℚ) := by
      rw [mul_assoc, ← zpow_add₀ h10]
      have he : k + -(k + 1) = -1 := by ring
      rw [he, hr10]
      push_cast
      rw [zpow_neg_one]
      field_simp
    rw [hcancel, jsRound_intCast]
    have he2 : n + k - n + 1 = k + 1 := by ring
    rw [he2, hr10]
    push_cast
    rw [zpow_add₀ h10, zpow_one]
    ring

theorem toPrec_idem {x : ℚ} (hx : x ≠ 0) {n : ℤ} (hn : 1 ≤ n) :
    toPrec (toPrec x n) n = toPrec x n := by
  obtain ⟨hlo, hhi, hne⟩ := toPrec_round_bounds hx hn
  rw [toPrec_repr hx n]
  exact toPrec_exact hn hne hlo hhi

/-! ## Lemmas: the fractional rounding stage as branch plus nice-step spec -/

theorem scanBorders_eq_findIdx (l : List ℚ) (x : ℚ) :
    scanBorders l x = l.findIdx (fun b => decide (x ≤ b)) := by
  induction l with
  | nil => rfl
  | cons b bs ih =>
      rw [List.findIdx_cons]
      unfold scanBorders
      by_cases h : x > b
      · rw [if_pos h, ih]
        have hd : (decide (x ≤ b)) = false := by simp [not_le.mpr h]
        rw [hd]
        simp
      · rw [if_neg h]
        have hd : (decide (x ≤ b)) = true := by simp [not_lt.mp h]
        rw [hd]
        simp

theorem fracBranch_eq (v : ℚ) (n mult : ℤ) :
    (let magnit := magniTude v
     let power : ℚ := 10 ^ (magnit - n + 1)
     let sign : ℚ := if v < 0 then -1 else 1
     let newValue := sign * (⌊|v| / power⌋ : ℚ) * power
     let normalizedvalue := sign * (v - newValue) / 10 ^ (magnit - n)
     let borders := if |newValue| < 1e-12 then BORDERS0 mult else BORDERS1 mult
     let middles := if |newValue| < 1e-12 then MIDDLES0 mult else MIDDLES1 mult
     let i := scanBorders borders normalizedvalue
     let rounded := middles.getD i 0
     toPrec (newValue + sign * rounded * 10 ^ (magnit - n)) (n + 1)) =
    niceStepSpec v n mult := by
  have hdiv : |v| / 10 ^ (magniTude v - n + 1) = |v| * 10 ^ (n - magniTude v - 1) := by
    rw [div_eq_mul_inv, ← zpow_neg]
    congr 1
    ring_nf
  have hM : (0 : ℚ) ≤ (⌊|v| * 10 ^ (n - magniTude v - 1)⌋ : ℚ) := by
    have h0 : (0 : ℚ) ≤ |v| * 10 ^ (n - magniTude v - 1) := by positivity
    exact_mod_cast Int.floor_nonneg.mpr h0
  have hPpos : (0 : ℚ) < 10 ^ (magniTude v - n + 1) := by positivity
  have hrem :
      (if v < 0 then (-1 : ℚ) else 1) *
          (v - (if v < 0 then (-1 : ℚ) else 1) *
            (⌊|v| * 10 ^ (n - magniTude v - 1)⌋ : ℚ) * 10 ^ (magniTude v - n + 1)) =
        |v| - |(if v < 0 then (-1 : ℚ) else 1) *
          (⌊|v| * 10 ^ (n - magniTude v - 1)⌋ : ℚ) * 10 ^ (magniTude v - n + 1)| := by
    split_ifs with h
    · rw [abs_mul, abs_mul, abs_of_nonneg hM, abs_of_pos hPpos, abs_of_neg h]
      simp only [abs_neg, abs_one, mul_one]
      ring
    · rw [abs_mul, abs_mul, abs_of_nonneg hM, abs_of_pos hPpos,
        abs_of_nonneg (not_lt.mp h)]
      simp only [abs_one, mul_one]
      ring
  simp only [niceStepSpec, hdiv, scanBorders_eq_findIdx, hrem]

theorem sigRound_eq_split (v p f : ℚ) :
    sigRound v p f =
      if 0 < roundTo (p - (⌊p⌋ : ℚ)) 1 ∧ ((⌊p⌋ : ℤ) : ℚ) < f then
        niceStepSpec v ⌊p⌋ (stepMultiplier (roundTo (p - (⌊p⌋ : ℚ)) 1))
      else toPrec v ⌊p⌋ := by
  by_cases hc : 0 < roundTo (p - (⌊p⌋ : ℚ)) 1 ∧ ((⌊p⌋ : ℤ) : ℚ) < f
  · simp only [sigRound]
    rw [if_pos hc, if_pos hc]
    exact fracBranch_eq v ⌊p⌋ (stepMultiplier (roundTo (p - (⌊p⌋ : ℚ)) 1))
  · simp only [sigRound]
    rw [if_neg hc, if_neg hc]

/-! ## Lemmas: the nice-step tables and idempotence of the fractional path -/

theorem em12 : (1e-12 : ℚ) = (10 : ℚ) ^ (-12 : ℤ) := by norm_num

theorem pick1_props {m : ℤ} (hm2 : 2 ≤ m) (hm5 : m ≤ 5) (x : ℚ) :
    ∃ ρ : ℤ, pickMiddle m x = (ρ : ℚ) ∧ 0 ≤ ρ ∧ ρ ≤ 10 ∧
      (ρ < 10 → pickMiddle m (ρ : ℚ) = (ρ : ℚ)) ∧ pickMiddle m 0 = 0 := by
  interval_cases m
  · -- m = 2 : borders [2.5, 7.5], middles [0, 5, 10]
    by_cases h1 : x ≤ (2.5 : ℚ)
    · exact ⟨0, by simp [pickMiddle, BORDERS1, MIDDLES1, List.findIdx_cons, h1],
        by norm_num, by norm_num, fun _ => by norm_num [pickMiddle, BORDERS1, MIDDLES1, List.findIdx_cons],
        by norm_num [pickMiddle, BORDERS1, MIDDLES1, List.findIdx_cons]⟩
    · by_cases h2 : x ≤ (7.5 : ℚ)
      · exact ⟨5, by simp [pickMiddle, BORDERS1, MIDDLES1, List.findIdx_cons, h1, h2],
          by norm_num, by norm_num, fun _ => by norm_num [pickMiddle, BORDERS1, MIDDLES1, List.findIdx_cons],
        by norm_num [pickMiddle, BORDERS1, MIDDLES1, List.findIdx_cons]⟩
      · exact ⟨10, by simp [pickMiddle, BORDERS1, MIDDLES1, List.findIdx_cons, h1, h2],
          by norm_num, by norm_num, fun h => absurd h (by norm_num),
          by norm_num [pickMiddle, BORDERS1, MIDDLES1, List.findIdx_cons]⟩
  · -- m = 3
    by_cases h1 : x ≤ (1.5 : ℚ)
    · exact ⟨0, by simp [pickMiddle, BORDERS1, MIDDLES1, List.findIdx_cons, h1],
        by norm_num, by norm_num, fun _ => by norm_num [pickMiddle, BORDERS1, MIDDLES1, List.findIdx_cons],
        by norm_num [pickMiddle, BORDERS1, MIDDLES1, List.findIdx_cons]⟩
    · by_cases h2 : x ≤ (4.5 : ℚ)
      · exact ⟨3, by simp [pickMiddle, BORDERS1, MIDDLES1, List.findIdx_cons, h1, h2],
          by norm_num, by norm_num, fun _ => by norm_num [pickMiddle, BORDERS1, MIDDLES1, List.findIdx_cons],
          by norm_num [pickMiddle, BORDERS1, MIDDLES1, List.findIdx_cons]⟩
      · by_cases h3 : x ≤ (8 : ℚ)
        · exact ⟨6, by simp [pickMiddle, BORDERS1, MIDDLES1, List.findIdx_cons, h1, h2, h3],
            by norm_num, by norm_num, fun _ => by norm_num [pickMiddle, BORDERS1, MIDDLES1, List.findIdx_cons],
            by norm_num [pickMiddle, BORDERS1, MIDDLES1, List.findIdx_cons]⟩
        · exact ⟨10, by simp [pickMiddle, BORDERS1, MIDDLES1, List.findIdx_cons, h1, h2, h3],
            by norm_num, by norm_num, fun h => absurd h (by norm_num),
            by norm_num [pickMiddle, BORDERS1, MIDDLES1, List.findIdx_cons]⟩
  · -- m = 4
    by_cases h1 : x ≤ (1 : ℚ)
    · exact ⟨0, by simp [pickMiddle, BORDERS1, MIDDLES1, List.findIdx_cons, h1],
        by norm_num, by norm_num, fun _ => by norm_num [pickMiddle, BORDERS1, MIDDLES1, List.findIdx_cons],
        by norm_num [pickMiddle, BORDERS1, MIDDLES1, List.findIdx_cons]⟩
    · by_cases h2 : x ≤ (3.5 : ℚ)
      · exact ⟨2, by simp [pickMiddle, BORDERS1, MIDDLES1, List.findIdx_cons, h1, h2],
          by norm_num, by norm_num, fun _ => by norm_num [pickMiddle, BORDERS1, MIDDLES1, List.findIdx_cons],
          by norm_num [pickMiddle, BORDERS1, MIDDLES1, List.findIdx_cons]⟩
      · by_cases h3 : x ≤ (6 : ℚ)
        · exact ⟨5, by simp [pickMiddle, BORDERS1, MIDDLES1, List.findIdx_cons, h1, h2, h3],
            by norm_num, by norm_num, fun _ => by norm_num [pickMiddle, BORDERS1, MIDDLES1, List.findIdx_cons],
            by norm_num [pickMiddle, BORDERS1, MIDDLES1, List.findIdx_cons]⟩
        · by_cases h4 : x ≤ (8.5 : ℚ)
          · exact ⟨7, by simp [pickMiddle, BORDERS1, MIDDLES1, List.findIdx_cons, h1, h2, h3, h4],
              by norm_num, by norm_num, fun _ => by norm_num [pickMiddle, BORDERS1, MIDDLES1, List.findIdx_cons],
              by norm_num [pickMiddle, BORDERS1, MIDDLES1, List.findIdx_cons]⟩
          · exact ⟨10, by simp [pickMiddle, BORDERS1, MIDDLES1, List.findIdx_cons, h1, h2, h3, h4],
              by norm_num, by norm_num, fun h => absurd h (by norm_num),
              by norm_num [pickMiddle, BORDERS1, MIDDLES1, List.findIdx_cons]⟩
  · -- m = 5
    by_cases h1 : x ≤ (1 : ℚ)
    · exact ⟨0, by simp [pickMiddle, BORDERS1, MIDDLES1, List.findIdx_cons, h1],
        by norm_num, by norm_num, fun _ => by norm_num [pickMiddle, BORDERS1, MIDDLES1, List.findIdx_cons],
        by norm_num [pickMiddle, BORDERS1, MIDDLES1, List.findIdx_cons]⟩
    · by_cases h2 : x ≤ (3 : ℚ)
      · exact ⟨2, by simp [pickMiddle, BORDERS1, MIDDLES1, List.findIdx_cons, h1, h2],
          by norm_num, by norm_num, fun _ => by norm_num [pickMiddle, BORDERS1, MIDDLES1, List.findIdx_cons],
          by norm_num [pickMiddle, BORDERS1, MIDDLES1, List.findIdx_cons]⟩
      · by_cases h3 : x ≤ (5 : ℚ)
        · exact ⟨4, by simp [pickMiddle, BORDERS1, MIDDLES1, List.findIdx_cons, h1, h2, h3],
            by norm_num, by norm_num, fun _ => by norm_num [pickMiddle, BORDERS1, MIDDLES1, List.findIdx_cons],
            by norm_num [pickMiddle, BORDERS1, MIDDLES1, List.findIdx_cons]⟩
        · by_cases h4 : x ≤ (7 : ℚ)
          · exact ⟨6, by simp [pickMiddle, BORDERS1, MIDDLES1, List.findIdx_cons, h1, h2, h3, h4],
              by norm_num, by norm_num, fun _ => by norm_num [pickMiddle, BORDERS1, MIDDLES1, List.findIdx_cons],
              by norm_num [pickMiddle, BORDERS1, MIDDLES1, List.findIdx_cons]⟩
          · by_cases h5 : x ≤ (9 : ℚ)
            · exact ⟨8, by simp [pickMiddle, BORDERS1, MIDDLES1, List.findIdx_cons, h1, h2, h3, h4, h5],
                by norm_num, by norm_num, fun _ => by norm_num [pickMiddle, BORDERS1, MIDDLES1, List.findIdx_cons],
                by norm_num [pickMiddle, BORDERS1, MIDDLES1, List.findIdx_cons]⟩
            · exact ⟨10, by simp [pickMiddle, BORDERS1, MIDDLES1, List.findIdx_cons, h1, h2, h3, h4, h5],
                by norm_num, by norm_num, fun h => absurd h (by norm_num),
                by norm_num [pickMiddle, BORDERS1, MIDDLES1, List.findIdx_cons]⟩

theorem mantissa_bounds {u : ℚ} (hu : u ≠ 0) (n : ℤ) :
    (10 : ℚ) ^ (n - 1) ≤ |u| * 10 ^ (n - magniTude u - 1) ∧
      |u| * 10 ^ (n - magniTude u - 1) < 10 ^ n := by
  obtain ⟨hlo, hhi⟩ := magniTude_spec hu
  have h10 : (10 : ℚ) ≠ 0 := by norm_num
  have hp : (0 : ℚ) < 10 ^ (n - magniTude u - 1) := by positivity
  constructor
  · calc (10 : ℚ) ^ (n - 1) = 10 ^ magniTude u * 10 ^ (n - magniTude u - 1) := by
          rw [← zpow_add₀ h10]
          ring_nf
      _ ≤ |u| * 10 ^ (n - magniTude u - 1) := mul_le_mul_of_nonneg_right hlo hp.le
  · calc |u| * 10 ^ (n - magniTude u - 1)
        < 10 ^ (magniTude u + 1) * 10 ^ (n - magniTude u - 1) :=
          mul_lt_mul_of_pos_right hhi hp
      _ = 10 ^ n := by
          rw [← zpow_add₀ h10]
          ring_nf

theorem sgn_abs_mul {u : ℚ} (w : ℚ) (hw : 0 ≤ w) :
    |(if u < 0 then (-1 : ℚ) else 1) * w| = w := by
  split_ifs with h
  · rw [abs_mul]
    simp [abs_of_nonneg hw]
  · rw [abs_mul]
    simp [abs_of_nonneg hw]

theorem niceStepSpec_eval {u : ℚ} (hu : u ≠ 0) {n : ℤ} (hn : 1 ≤ n)
    (hmg : -12 ≤ magniTude u) (m : ℤ) :
    niceStepSpec u n m =
      toPrec ((if u < 0 then (-1 : ℚ) else 1) *
        (10 * (⌊|u| * 10 ^ (n - magniTude u - 1)⌋ : ℚ) +
          pickMiddle m (10 * (|u| * 10 ^ (n - magniTude u - 1) -
            (⌊|u| * 10 ^ (n - magniTude u - 1)⌋ : ℚ)))) *
        10 ^ (magniTude u - n)) (n + 1) := by
  obtain ⟨hTlo, hThi⟩ := mantissa_bounds hu n
  have h10 : (10 : ℚ) ≠ 0 := by norm_num
  simp only [niceStepSpec, pickMiddle]
  set mg := magniTude u with hmgdef
  set T := |u| * 10 ^ (n - mg - 1) with hTdef
  set M : ℚ := (⌊T⌋ : ℚ) with hMdef
  have hp : (0 : ℚ) < 10 ^ (mg - n + 1) := by positivity
  have hE : (0 : ℚ) < 10 ^ (mg - n) := by positivity
  have hMlo : (10 : ℚ) ^ (n - 1) ≤ M := by
    have hAq : (((10 : ℤ) ^ (n - 1).toNat : ℤ) : ℚ) = (10 : ℚ) ^ (n - 1) :=
      zpow_int_cast_q (n - 1) (by omega)
    have hfl : ((10 : ℤ) ^ (n - 1).toNat : ℤ) ≤ ⌊T⌋ :=
      Int.le_floor.mpr (hAq.le.trans hTlo)
    calc (10 : ℚ) ^ (n - 1) = (((10 : ℤ) ^ (n - 1).toNat : ℤ) : ℚ) := hAq.symm
      _ ≤ M := by rw [hMdef]; exact_mod_cast hfl
  have hMnn : (0 : ℚ) ≤ M := by
    have hz : (0 : ℚ) ≤ (10 : ℚ) ^ (n - 1) := by positivity
    linarith
  have hsplit : (10 : ℚ) ^ (mg - n + 1) = 10 * 10 ^ (mg - n) := by
    rw [show mg - n + 1 = 1 + (mg - n) from by ring, zpow_add₀ h10, zpow_one]
  have hueq : |u| = T * 10 ^ (mg - n + 1) := by
    rw [hTdef, mul_assoc, ← zpow_add₀ h10]
    rw [show n - mg - 1 + (mg - n + 1) = 0 from by ring, zpow_zero, mul_one]
  have hcutabs :
      |(if u < 0 then (-1 : ℚ) else 1) * M * 10 ^ (mg - n + 1)| =
        M * 10 ^ (mg - n + 1) := by
    rw [mul_assoc, sgn_abs_mul _ (mul_nonneg hMnn hp.le)]
  have hnotlead :
      ¬ |(if u < 0 then (-1 : ℚ) else 1) * M * 10 ^ (mg - n + 1)| < 1e-12 := by
    rw [hcutabs, not_lt]
    calc (1e-12 : ℚ) = 10 ^ (-12 : ℤ) := em12
      _ ≤ 10 ^ mg := zpow_le_zpow_right₀ (by norm_num : (1 : ℚ) ≤ 10) hmg
      _ = 10 ^ (n - 1) * 10 ^ (mg - n + 1) := by
          rw [← zpow_add₀ h10]
          rw [show n - 1 + (mg - n + 1) = mg from by ring]
      _ ≤ M * 10 ^ (mg - n + 1) := mul_le_mul_of_nonneg_right hMlo hp.le
  rw [if_neg hnotlead, if_neg hnotlead]
  have hrem :
      (|u| - |(if u < 0 then (-1 : ℚ) else 1) * M * 10 ^ (mg - n + 1)|) /
          10 ^ (mg - n) = 10 * (T - M) := by
    rw [hcutabs, hueq, hsplit]
    field_simp
    ring
  rw [hrem]
  generalize (MIDDLES1 m).getD
      (List.findIdx (fun b => decide (10 * (T - M) ≤ b)) (BORDERS1 m)) 0 = ρ
  congr 1
  rw [hsplit]
  ring

theorem niceStepSpec_repr {u : ℚ} (hu : u ≠ 0) {n : ℤ} (hn : 1 ≤ n)
    (hmg : -12 ≤ magniTude u) {m : ℤ} (hm2 : 2 ≤ m) (hm5 : m ≤ 5) :
    ∃ ρ : ℤ, 0 ≤ ρ ∧ ρ ≤ 10 ∧
      (ρ < 10 → pickMiddle m (ρ : ℚ) = (ρ : ℚ)) ∧
      niceStepSpec u n m =
        (if u < 0 then (-1 : ℚ) else 1) *
          (((10 * ⌊|u| * 10 ^ (n - magniTude u - 1)⌋ + ρ : ℤ)) : ℚ) *
          10 ^ (magniTude u - n) := by
  obtain ⟨hTlo, hThi⟩ := mantissa_bounds hu n
  have h10 : (10 : ℚ) ≠ 0 := by norm_num
  set mg := magniTude u with hmgdef
  set T := |u| * 10 ^ (n - mg - 1) with hTdef
  set M : ℤ := ⌊T⌋ with hMdef
  obtain ⟨ρ, hρeq, hρ0, hρ10, hfix, hzero⟩ :=
    pick1_props hm2 hm5 (10 * (T - (M : ℚ)))
  refine ⟨ρ, hρ0, hρ10, hfix, ?_⟩
  rw [niceStepSpec_eval hu hn hmg m]
  rw [← hmgdef, ← hTdef, ← hMdef, hρeq]
  -- bounds of K = 10 M + ρ
  have hBq : (((10 : ℤ) ^ n.toNat : ℤ) : ℚ) = (10 : ℚ) ^ n :=
    zpow_int_cast_q n (by omega)
  have hAq : (((10 : ℤ) ^ (n - 1).toNat : ℤ) : ℚ) = (10 : ℚ) ^ (n - 1) :=
    zpow_int_cast_q (n - 1) (by omega)
  have hMlo : ((10 : ℤ) ^ (n - 1).toNat : ℤ) ≤ M :=
    Int.le_floor.mpr (hAq.le.trans hTlo)
  have hMhi : M < ((10 : ℤ) ^ n.toNat : ℤ) :=
    Int.floor_lt.mpr (by rw [hBq]; exact hThi)
  have hKcast : ((10 * M + ρ : ℤ) : ℚ) = 10 * (M : ℚ) + (ρ : ℚ) := by push_cast; ring
  have hten : (10 : ℚ) ^ n = 10 * 10 ^ (n - 1) := by
    rw [show n = 1 + (n - 1) from by ring]
    rw [zpow_add₀ h10, zpow_one]
    ring_nf
  have htenB : (10 : ℚ) ^ (n + 1) = 10 * 10 ^ n := by
    rw [show n + 1 = 1 + n from by ring, zpow_add₀ h10, zpow_one]
  have hKlo : (10 : ℚ) ^ n ≤ ((10 * M + ρ : ℤ) : ℚ) := by
    rw [hKcast, hten]
    have hMq : (10 : ℚ) ^ (n - 1) ≤ (M : ℚ) := by
      rw [← hAq]; exact_mod_cast hMlo
    have hρq : (0 : ℚ) ≤ (ρ : ℚ) := by exact_mod_cast hρ0
    linarith
  have hKhi : ((10 * M + ρ : ℤ) : ℚ) ≤ (10 : ℚ) ^ (n + 1) := by
    rw [hKcast, htenB]
    have hMq : (M : ℚ) ≤ (10 : ℚ) ^ n - 1 := by
      have hMz : M ≤ ((10 : ℤ) ^ n.toNat : ℤ) - 1 := by omega
      have := (@Int.cast_le ℚ _ _ _).mpr hMz
      push_cast at this
      rw [show ((10 : ℚ) ^ n.toNat) = (10 : ℚ) ^ n from by
        rw [← hBq]; push_cast; ring] at this
      linarith
    have hρq : (ρ : ℚ) ≤ 10 := by exact_mod_cast hρ10
    linarith
  have hKne : (10 * M + ρ : ℤ) ≠ 0 := by
    have hone : (1 : ℚ) ≤ (10 : ℚ) ^ n := one_le_zpow₀ (by norm_num) (by omega)
    intro hz
    rw [hz] at hKlo
    push_cast at hKlo
    linarith
  have habsK : |((10 * M + ρ : ℤ) : ℚ)| = ((10 * M + ρ : ℤ) : ℚ) := by
    apply abs_of_nonneg
    have hone : (0 : ℚ) < (10 : ℚ) ^ n := by positivity
    linarith
  by_cases hneg : u < 0
  · rw [if_pos hneg]
    have hneg1 : ((-1 : ℚ)) * (10 * (M : ℚ) + (ρ : ℚ)) = ((-(10 * M + ρ) : ℤ) : ℚ) := by
      push_cast; ring
    have hneg2 : ((-1 : ℚ)) * ((10 * M + ρ : ℤ) : ℚ) = ((-(10 * M + ρ) : ℤ) : ℚ) := by
      push_cast; ring
    rw [hneg1, hneg2]
    apply toPrec_exact (by omega : (1 : ℤ) ≤ n + 1) (by omega : (-(10 * M + ρ) : ℤ) ≠ 0)
    · rw [show (n + 1 - 1 : ℤ) = n from by ring, Int.cast_neg, abs_neg, habsK]
      exact hKlo
    · rw [Int.cast_neg, abs_neg, habsK]
      exact hKhi
  · rw [if_neg hneg]
    rw [one_mul, one_mul]
    rw [show (10 * (M : ℚ) + (ρ : ℚ)) = ((10 * M + ρ : ℤ) : ℚ) from by push_cast; ring]
    apply toPrec_exact (by omega : (1 : ℤ) ≤ n + 1) hKne
    · rw [show (n + 1 - 1 : ℤ) = n from by ring, habsK]
      exact hKlo
    · rw [habsK]
      exact hKhi

theorem niceStepSpec_idem {v : ℚ} (hv : v ≠ 0) {n : ℤ} (hn : 1 ≤ n)
    (hmg : -12 ≤ magniTude v) {m : ℤ} (hm2 : 2 ≤ m) (hm5 : m ≤ 5) :
    niceStepSpec (niceStepSpec v n m) n m = niceStepSpec v n m := by
  obtain ⟨ρ, hρ0, hρ10, hfix, hw⟩ := niceStepSpec_repr hv hn hmg hm2 hm5
  obtain ⟨hTlo, hThi⟩ := mantissa_bounds hv n
  have h10 : (10 : ℚ) ≠ 0 := by norm_num
  set mg := magniTude v with hmgdef
  set M : ℤ := ⌊|v| * 10 ^ (n - mg - 1)⌋ with hMdef
  set K : ℤ := 10 * M + ρ with hKdef
  set w := niceStepSpec v n m with hwdef
  have hAq : (((10 : ℤ) ^ (n - 1).toNat : ℤ) : ℚ) = (10 : ℚ) ^ (n - 1) :=
    zpow_int_cast_q (n - 1) (by omega)
  have hBq : (((10 : ℤ) ^ n.toNat : ℤ) : ℚ) = (10 : ℚ) ^ n :=
    zpow_int_cast_q n (by omega)
  set A : ℤ := (10 : ℤ) ^ (n - 1).toNat with hAdef
  set B : ℤ := (10 : ℤ) ^ n.toNat with hBdef
  have hMlo : A ≤ M := Int.le_floor.mpr (hAq.le.trans hTlo)
  have hMhi : M < B := Int.floor_lt.mpr (by rw [hBq]; exact hThi)
  have hApos : 0 < A := by positivity
  have hKlo : 10 * A ≤ K := by omega
  have hKhi : K ≤ 10 * B := by omega
  have hKpos : 0 < K := by omega
  have htenA : (10 : ℚ) * ((A : ℤ) : ℚ) = 10 ^ n := by
    rw [hAq]
    rw [show n = 1 + (n - 1) from by ring, zpow_add₀ h10, zpow_one]
    ring_nf
  have htenB : (10 : ℚ) * ((B : ℤ) : ℚ) = 10 ^ (n + 1) := by
    rw [hBq, show n + 1 = 1 + n from by ring, zpow_add₀ h10, zpow_one]
  have hKqlo : (10 : ℚ) ^ n ≤ (K : ℚ) := by
    rw [← htenA]
    have : ((10 * A : ℤ) : ℚ) ≤ (K : ℚ) := by exact_mod_cast hKlo
    push_cast at this
    linarith
  have hKqhi : (K : ℚ) ≤ (10 : ℚ) ^ (n + 1) := by
    rw [← htenB]
    have : (K : ℚ) ≤ ((10 * B : ℤ) : ℚ) := by exact_mod_cast hKhi
    push_cast at this
    linarith
  have hE : (0 : ℚ) < 10 ^ (mg - n) := by positivity
  have hKq0 : (0 : ℚ) < (K : ℚ) := by exact_mod_cast hKpos
  have hwabs : |w| = (K : ℚ) * 10 ^ (mg - n) := by
    rw [hw, mul_assoc]
    exact sgn_abs_mul _ (mul_nonneg hKq0.le hE.le)
  have hwne : w ≠ 0 := by
    intro hz
    rw [hz, abs_zero] at hwabs
    have := mul_pos hKq0 hE
    linarith
  have hsif : (if w < 0 then (-1 : ℚ) else 1) = (if v < 0 then (-1 : ℚ) else 1) := by
    by_cases hneg : v < 0
    · rw [if_pos hneg]
      have hwneg : w < 0 := by
        rw [hw, if_pos hneg]
        have : (0 : ℚ) < (K : ℚ) * 10 ^ (mg - n) := mul_pos hKq0 hE
        nlinarith
      rw [if_pos hwneg]
    · rw [if_neg hneg]
      have hwpos : ¬ w < 0 := by
        rw [hw, if_neg hneg, one_mul]
        have : (0 : ℚ) < (K : ℚ) * 10 ^ (mg - n) := mul_pos hKq0 hE
        linarith
      rw [if_neg hwpos]
  rcases lt_or_eq_of_le hKhi with hKB | hKB
  · -- no overflow into the next decade: the magnitude is unchanged
    have hmagw : magniTude w = mg := by
      apply magniTude_eq_of hwne
      · rw [hwabs]
        calc (10 : ℚ) ^ mg = 10 ^ n * 10 ^ (mg - n) := by
              rw [← zpow_add₀ h10]
              rw [show n + (mg - n) = mg from by ring]
          _ ≤ (K : ℚ) * 10 ^ (mg - n) := mul_le_mul_of_nonneg_right hKqlo hE.le
      · rw [hwabs]
        have hKlt : (K : ℚ) < 10 ^ (n + 1) := by
          rw [← htenB]
          have : (K : ℚ) < ((10 * B : ℤ) : ℚ) := by exact_mod_cast hKB
          push_cast at this
          linarith
        calc (K : ℚ) * 10 ^ (mg - n) < 10 ^ (n + 1) * 10 ^ (mg - n) :=
              mul_lt_mul_of_pos_right hKlt hE
          _ = 10 ^ (mg + 1) := by
              rw [← zpow_add₀ h10]
              rw [show n + 1 + (mg - n) = mg + 1 from by ring]
    have hmgw12 : (-12 : ℤ) ≤ magniTude w := by rw [hmagw]; exact hmg
    rw [niceStepSpec_eval hwne hn hmgw12 m, hmagw, hsif]
    have hT2 : |w| * 10 ^ (n - mg - 1) = (K : ℚ) / 10 := by
      rw [hwabs, mul_assoc, ← zpow_add₀ h10]
      rw [show mg - n + (n - mg - 1) = -1 from by ring, zpow_neg_one]
      rw [div_eq_mul_inv]
    rw [hT2]
    by_cases hρsm : ρ < 10
    · have hfloor : ⌊(K : ℚ) / 10⌋ = M := by
        rw [Int.floor_eq_iff]
        constructor
        · rw [le_div_iff₀ (by norm_num : (0 : ℚ) < 10)]
          have : ((10 * M : ℤ) : ℚ) ≤ (K : ℚ) := by
            apply Int.cast_le.mpr
            omega
          push_cast at this
          linarith
        · rw [div_lt_iff₀ (by norm_num : (0 : ℚ) < 10)]
          have : (K : ℚ) < ((10 * M + 10 : ℤ) : ℚ) := by
            apply Int.cast_lt.mpr
            omega
          push_cast at this
          linarith
      rw [hfloor]
      have hremv : 10 * ((K : ℚ) / 10 - (M : ℚ)) = (ρ : ℚ) := by
        rw [hKdef]
        push_cast
        ring
      rw [hremv, hfix hρsm]
      have hsum : 10 * (M : ℚ) + (ρ : ℚ) = (K : ℚ) := by
        rw [hKdef]
        push_cast
        ring
      conv_lhs =>
        rw [hsum]
      rw [hw]
      by_cases hneg : v < 0
      · rw [if_pos hneg]
        have hneg2 : ((-1 : ℚ)) * ((K : ℤ) : ℚ) = (((-K : ℤ)) : ℚ) := by push_cast; ring
        rw [hneg2]
        apply toPrec_exact (by omega : (1 : ℤ) ≤ n + 1) (by omega : (-K : ℤ) ≠ 0)
        · rw [show (n + 1 - 1 : ℤ) = n from by ring, Int.cast_neg, abs_neg,
            abs_of_pos hKq0]
          exact hKqlo
        · rw [Int.cast_neg, abs_neg, abs_of_pos hKq0]
          exact hKqhi
      · rw [if_neg hneg, one_mul]
        apply toPrec_exact (by omega : (1 : ℤ) ≤ n + 1) (by omega : K ≠ 0)
        · rw [show (n + 1 - 1 : ℤ) = n from by ring, abs_of_pos hKq0]
          exact hKqlo
        · rw [abs_of_pos hKq0]
          exact hKqhi
    · -- the middles entry 10 bumped the cut to the next step: the remainder is 0
      have hρeq10 : ρ = 10 := by omega
      have hfloor : ⌊(K : ℚ) / 10⌋ = M + 1 := by
        have hKM : (K : ℚ) / 10 = ((M + 1 : ℤ) : ℚ) := by
          rw [hKdef, hρeq10]
          push_cast
          ring
        rw [hKM, Int.floor_intCast]
      rw [hfloor]
      have hremv : 10 * ((K : ℚ) / 10 - ((M + 1 : ℤ) : ℚ)) = 0 := by
        rw [hKdef, hρeq10]
        push_cast
        ring
      obtain ⟨_, _, _, _, _, hzero⟩ := pick1_props hm2 hm5 0
      rw [show ((M + 1 : ℤ) : ℚ) = (M : ℚ) + 1 from by push_cast; ring] at hremv ⊢
      rw [hremv, hzero]
      have hsum : 10 * ((M : ℚ) + 1) + 0 = (K : ℚ) := by
        rw [hKdef, hρeq10]
        push_cast
        ring
      conv_lhs =>
        rw [hsum]
      rw [hw]
      by_cases hneg : v < 0
      · rw [if_pos hneg]
        have hneg2 : ((-1 : ℚ)) * ((K : ℤ) : ℚ) = (((-K : ℤ)) : ℚ) := by push_cast; ring
        rw [hneg2]
        apply toPrec_exact (by omega : (1 : ℤ) ≤ n + 1) (by omega : (-K : ℤ) ≠ 0)
        · rw [show (n + 1 - 1 : ℤ) = n from by ring, Int.cast_neg, abs_neg,
            abs_of_pos hKq0]
          exact hKqlo
        · rw [Int.cast_neg, abs_neg, abs_of_pos hKq0]
          exact hKqhi
      · rw [if_neg hneg, one_mul]
        apply toPrec_exact (by omega : (1 : ℤ) ≤ n + 1) (by omega : K ≠ 0)
        · rw [show (n + 1 - 1 : ℤ) = n from by ring, abs_of_pos hKq0]
          exact hKqlo
        · rw [abs_of_pos hKq0]
          exact hKqhi
  · -- K = 10 B : the rounded value is exactly the next power of ten
    have hwB : |w| = 10 ^ (mg + 1) := by
      rw [hwabs]
      have : (K : ℚ) = 10 ^ (n + 1) := by
        rw [← htenB]
        exact_mod_cast congrArg (fun z : ℤ => (z : ℚ)) hKB
      rw [this, ← zpow_add₀ h10]
      rw [show n + 1 + (mg - n) = mg + 1 from by ring]
    have hmagw : magniTude w = mg + 1 := by
      apply magniTude_eq_of hwne
      · rw [hwB]
      · rw [hwB]
        apply zpow_lt_zpow_right₀ (by norm_num : (1 : ℚ) < 10)
        omega
    have hmgw12 : (-12 : ℤ) ≤ magniTude w := by rw [hmagw]; omega
    rw [niceStepSpec_eval hwne hn hmgw12 m, hmagw, hsif]
    have hT2 : |w| * 10 ^ (n - (mg + 1) - 1) = ((A : ℤ) : ℚ) := by
      rw [hwB, ← zpow_add₀ h10]
      rw [show mg + 1 + (n - (mg + 1) - 1) = n - 1 from by ring, hAq]
    rw [hT2, Int.floor_intCast]
    have hremv : 10 * (((A : ℤ) : ℚ) - ((A : ℤ) : ℚ)) = 0 := by ring
    rw [hremv]
    obtain ⟨_, _, _, _, _, hzero⟩ := pick1_props hm2 hm5 0
    rw [hzero]
    have hsum : 10 * ((A : ℤ) : ℚ) + 0 = ((B : ℤ) : ℚ) := by
      rw [add_zero, htenA, ← hBq]
    conv_lhs =>
      rw [hsum]
    have hKBq : ((K : ℤ) : ℚ) = 10 * ((B : ℤ) : ℚ) := by
      exact_mod_cast congrArg (fun z : ℤ => (z : ℚ)) hKB
    have hconv : ((K : ℤ) : ℚ) * 10 ^ (mg - n) = ((B : ℤ) : ℚ) * 10 ^ (mg + 1 - n) := by
      rw [hKBq]
      rw [show (10 : ℚ) * ((B : ℤ) : ℚ) * 10 ^ (mg - n) =
        ((B : ℤ) : ℚ) * (10 * 10 ^ (mg - n)) from by ring]
      congr 1
      rw [show mg + 1 - n = 1 + (mg - n) from by ring, zpow_add₀ h10, zpow_one]
    rw [hw]
    rw [show (if v < 0 then (-1 : ℚ) else 1) * ((K : ℤ) : ℚ) * 10 ^ (mg - n) =
      (if v < 0 then (-1 : ℚ) else 1) * (((B : ℤ) : ℚ) * 10 ^ (mg + 1 - n)) from by
        rw [mul_assoc, hconv]]
    have hBq0 : (0 : ℚ) < ((B : ℤ) : ℚ) := by
      rw [hBq]
      positivity
    have hBlo : (10 : ℚ) ^ (n + 1 - 1) ≤ |((B : ℤ) : ℚ)| := by
      rw [show (n + 1 - 1 : ℤ) = n from by ring, abs_of_pos hBq0, hBq]
    have hBhi : |((B : ℤ) : ℚ)| ≤ (10 : ℚ) ^ (n + 1) := by
      rw [abs_of_pos hBq0, hBq]
      apply zpow_le_zpow_right₀ (by norm_num : (1 : ℚ) ≤ 10)
      omega
    have hBne : B ≠ 0 := by positivity
    by_cases hneg : v < 0
    · rw [if_pos hneg]
      rw [show ((-1 : ℚ)) * ((B : ℤ) : ℚ) * 10 ^ (mg + 1 - n) =
        (((-B : ℤ)) : ℚ) * 10 ^ (mg + 1 - n) from by push_cast; ring]
      rw [show ((-1 : ℚ)) * (((B : ℤ) : ℚ) * 10 ^ (mg + 1 - n)) =
        (((-B : ℤ)) : ℚ) * 10 ^ (mg + 1 - n) from by push_cast; ring]
      apply toPrec_exact (by omega : (1 : ℤ) ≤ n + 1)
        (by simpa using hBne : (-B : ℤ) ≠ 0)
      · rw [Int.cast_neg, abs_neg]
        exact hBlo
      · rw [Int.cast_neg, abs_neg]
        exact hBhi
    · rw [if_neg hneg, one_mul, one_mul]
      exact toPrec_exact (by omega : (1 : ℤ) ≤ n + 1) hBne hBlo hBhi

/-! ## Helper lemmas for the claim theorems -/

theorem stepMultiplier_range (f : ℚ) : 2 ≤ stepMultiplier f ∧ stepMultiplier f ≤ 5 := by
  simp only [stepMultiplier]
  by_cases h : roundTo (if f > (0.5 : ℚ) then 1 - f else f) 1 = 0
  · rw [if_pos h]
    norm_num
  · rw [if_neg h]
    exact ⟨le_min (by norm_num) (le_max_left 2 _), min_le_left 5 _⟩

theorem scanBorders_le_length (l : List ℚ) (x : ℚ) : scanBorders l x ≤ l.length := by
  induction l with
  | nil => simp [scanBorders]
  | cons b bs ih =>
      unfold scanBorders
      by_cases h : x > b
      · rw [if_pos h]
        simpa using Nat.succ_le_succ ih
      · rw [if_neg h]
        simp

theorem get_isSome_of_lt {α : Type} (l : List α) (i : ℕ) (h : i < l.length) :
    (l.get? i).isSome = true := by
  rw [List.get?_eq_get h]
  rfl

theorem magniTude_ge_neg12 {v : ℚ} (hv : (1e-12 : ℚ) ≤ |v|) (hv0 : v ≠ 0) :
    -12 ≤ magniTude v := by
  rw [magniTude_eq_log, if_neg hv0]
  have habs : (0 : ℚ) < |v| := abs_pos.mpr hv0
  rw [← Int.zpow_le_iff_le_log (show (1 : ℕ) < 10 by norm_num) habs]
  rw [em12] at hv
  simpa using hv

theorem unitSwitch_degree (v : ℚ) (si : Bool) :
    unitSwitch "°" v si = ⟨v, "°", 2, none⟩ := rfl

/-! ## The claim theorems, their witnesses and counterexamples -/

section
attribute [local semireducible] Rat.mul Rat.add Rat.sub Rat.inv Rat.ofScientific

-- ## C1

/-- C1: the interval branch is dead code for inputs like "1-2": JS parseFloat
already parses the longest numeric prefix "1", so the midpoints 1.5 and 2.5 the
spec promises are never produced; the transform returns "1" and "2". -/
theorem claim_C1_interval_branch_dead :
    significantTransform "1-2" noOpts = some "1" ∧
    significantTransform "2-3" noOpts = some "2" := by decide

-- ## C2

/-- C2 counterexample: level-2 rounding of the timestamp does not return the
".000"-bearing string the claim promises. -/
theorem claim_C2_counterexample :
    significantTransform "2025-09-27T14:16:28.000+0200" (optsScale 2) ≠
      some "2025-09-27T14:16:00.000+0200" := by decide

/-- C2 (amended): level-2 rounding of the timestamp zeroes the seconds and keeps
the offset, but the millisecond group is re-rendered only at level 4, so the
".000" of the input is dropped. -/
theorem claim_C2_datetime_level2 :
    significantTransform "2025-09-27T14:16:28.000+0200" (optsScale 2) =
      some "2025-09-27T14:16:00+0200" := by decide

-- ## C3

/-- C3 counterexample: the testing flag changes the returned string (it adds
Number.EPSILON to the value before rendering). -/
theorem claim_C3_counterexample :
    significantTransform "1" (optsTesting true) ≠
      significantTransform "1" (optsTesting false) := by decide

/-- C3 (amended): the verbose flag alone never changes the returned string: the
transform's result does not read it (it only gates logging). -/
theorem claim_C3_verbose_invariant (s : String) (o : Opts) (b₁ b₂ : Option Bool) :
    significantTransform s (withVerbose o b₁) = significantTransform s (withVerbose o b₂) :=
  rfl

-- ## C4

/-- C4: for nonzero x, toPrec is the closed form round(x·10^(n−mag−1))/10^(n−mag−1)
with mag = ⌊log₁₀|x|⌋, the code's magniTude equals that floor-log, magniTude 0 = 0,
and toPrec 0 n = 0. -/
theorem claim_C4_toPrec_closed_form (x : ℚ) (n : ℤ) (hx : x ≠ 0) :
    toPrec x n =
      (jsRound (x * 10 ^ (n - ⌊Real.logb 10 (|x| : ℝ)⌋ - 1)) : ℚ) /
        10 ^ (n - ⌊Real.logb 10 (|x| : ℝ)⌋ - 1) ∧
    magniTude x = ⌊Real.logb 10 (|x| : ℝ)⌋ ∧
    magniTude 0 = 0 ∧ toPrec 0 n = 0 := by
  have hm := magniTude_eq_floor_logb hx
  refine ⟨?_, hm, by decide, by simp [toPrec]⟩
  rw [← hm]
  rw [toPrec, if_neg hx]

/-- C4 witness: the closed form at x = 3, n = 2. -/
theorem claim_C4_witness :
    (3 : ℚ) ≠ 0 ∧
    (toPrec (3 : ℚ) 2 =
      (jsRound ((3 : ℚ) * 10 ^ ((2 : ℤ) - ⌊Real.logb 10 (|(3 : ℚ)| : ℝ)⌋ - 1)) : ℚ) /
        10 ^ ((2 : ℤ) - ⌊Real.logb 10 (|(3 : ℚ)| : ℝ)⌋ - 1) ∧
      magniTude (3 : ℚ) = ⌊Real.logb 10 (|(3 : ℚ)| : ℝ)⌋ ∧
      magniTude 0 = 0 ∧ toPrec 0 2 = 0) :=
  ⟨by norm_num, claim_C4_toPrec_closed_form 3 2 (by norm_num)⟩

-- ## C5

/-- C5 counterexample: at target precision 2.04 the code rounds the fractional
part to one decimal (0.04 → 0) and takes the plain toPrec path, where the claim
demands the nice-step path with multiplier clamp(ceil(1/0.04),[2,5]) = 5. -/
theorem claim_C5_counterexample :
    sigRound 1.23 2.04 3 ≠ sigRoundClaimC5 1.23 2.04 3 ∧
    sigRound 1.23 2.04 3 = toPrec 1.23 2 := by decide

/-- C5 (amended): the fractional path runs iff the ONE-DECIMAL-ROUNDED fractional
part roundTo(p−⌊p⌋,1) is positive and precisionFound > ⌊p⌋; the multiplier is
computed from the symmetrised rounded fraction (stepMultiplier); otherwise the
value is rounded by plain toPrec(value, ⌊p⌋). -/
theorem claim_C5_fractional_gate (v p f : ℚ) :
    sigRound v p f =
      if 0 < roundTo (p - (⌊p⌋ : ℚ)) 1 ∧ ((⌊p⌋ : ℤ) : ℚ) < f then
        niceStepSpec v ⌊p⌋ (stepMultiplier (roundTo (p - (⌊p⌋ : ℚ)) 1))
      else toPrec v ⌊p⌋ :=
  sigRound_eq_split v p f

-- ## C6

/-- C6 counterexample: idempotence of the rounding stage fails for tiny values:
9.8e-15 rounds to 1e-14, which rounds again to 1.1e-14 (the |newValue| < 1e-12
fudge switches to the zero-lead tables, whose middles are not fixed points). -/
theorem claim_C6_counterexample :
    sigRound (sigRound (9.8e-15 : ℚ) 1.5 2) 1.5 2 ≠ sigRound (9.8e-15 : ℚ) 1.5 2 := by
  decide

/-- C6 (amended): for values at least 1e-12 in magnitude and integer target
precision at least 1, the rounding stage is idempotent: re-rounding its result at
the same precision returns the same value. -/
theorem claim_C6_idempotent {v p : ℚ} (f : ℚ) (hv : (1e-12 : ℚ) ≤ |v|)
    (hp : 1 ≤ ⌊p⌋) :
    sigRound (sigRound v p f) p f = sigRound v p f := by
  have hv0 : v ≠ 0 := by
    intro h
    rw [h, abs_zero] at hv
    norm_num at hv
  have hmg := magniTude_ge_neg12 hv hv0
  have h25 := stepMultiplier_range (roundTo (p - (⌊p⌋ : ℚ)) 1)
  by_cases hc : 0 < roundTo (p - (⌊p⌋ : ℚ)) 1 ∧ ((⌊p⌋ : ℤ) : ℚ) < f
  · rw [sigRound_eq_split v p f, if_pos hc, sigRound_eq_split, if_pos hc]
    exact niceStepSpec_idem hv0 hp hmg h25.1 h25.2
  · rw [sigRound_eq_split v p f, if_neg hc, sigRound_eq_split, if_neg hc]
    exact toPrec_idem hv0 hp

/-- C6 witness: idempotence at v = 1.23, p = 1.5, f = 3. -/
theorem claim_C6_witness :
    ((1e-12 : ℚ) ≤ |(1.23 : ℚ)| ∧ 1 ≤ ⌊(1.5 : ℚ)⌋) ∧
    sigRound (sigRound 1.23 1.5 3) 1.5 3 = sigRound 1.23 1.5 3 :=
  ⟨⟨by decide, by decide⟩, claim_C6_idempotent 3 (by decide) (by decide)⟩

-- ## C8

set_option exponentiation.threshold 1100 in
set_option maxRecDepth 4000 in
/-- C8: divisor parsing: "1Mi" is 1048576; "0" is ignored; a parsed divisor is
never zero; an overflowing amount (400 nines) is discarded; an unknown suffix
keeps the bare amount. -/
theorem claim_C8_divisor_parsing :
    parseDiv "1Mi" = some 1048576 ∧
    parseDiv "0" = none ∧
    (∀ s : String, ∀ d : ℚ, parseDiv s = some d → d ≠ 0) ∧
    parseDiv (String.mk (List.replicate 400 '9')) = none ∧
    parseDiv "2X" = some 2 := by
  refine ⟨by decide, by decide, ?_, by decide, by decide⟩
  intro s d h
  simp only [parseDiv] at h
  rcases hsplit : divSplit (trimList s.toList) with _ | ⟨a, suf⟩ <;> rw [hsplit] at h
  · exact absurd h (by simp)
  · intro hd0
    subst hd0
    repeat' split at h
    all_goals simp_all

set_option exponentiation.threshold 1100 in
set_option maxRecDepth 4000 in
/-- C8 witness: the no-zero-divisor guarantee applied at "5". -/
theorem claim_C8_witness :
    parseDiv "5" = some 5 ∧ (5 : ℚ) ≠ 0 :=
  ⟨by decide, claim_C8_divisor_parsing.2.2.1 "5" 5 (by decide)⟩

-- ## C9

/-- C9: the transform can abort: input "999999" with precision 0.04 reaches
toExponential(−1), the RangeError throw site (modelled none); unparseable input
is returned verbatim as claimed. -/
theorem claim_C9_throw_reachable :
    significantTransform "999999" (optsPrecision (0.04 : ℚ)) = none ∧
    significantTransform "abc" noOpts = some "abc" := by decide

-- ## C10

/-- C10: the step multiplier always lands in {2,3,4,5}; each middles table has
exactly one more entry than its borders table; the border scan index never
exceeds the borders length, so the middles lookup is always defined. -/
theorem claim_C10_table_accesses_safe :
    (∀ f : ℚ, 0 < f → f < 1 →
      stepMultiplier f = 2 ∨ stepMultiplier f = 3 ∨
      stepMultiplier f = 4 ∨ stepMultiplier f = 5) ∧
    (∀ m : ℤ, 2 ≤ m → m ≤ 5 →
      (MIDDLES1 m).length = (BORDERS1 m).length + 1 ∧
      (MIDDLES0 m).length = (BORDERS0 m).length + 1) ∧
    (∀ m : ℤ, 2 ≤ m → m ≤ 5 → ∀ x : ℚ,
      scanBorders (BORDERS1 m) x ≤ (BORDERS1 m).length ∧
      scanBorders (BORDERS0 m) x ≤ (BORDERS0 m).length ∧
      ((MIDDLES1 m).get? (scanBorders (BORDERS1 m) x)).isSome = true ∧
      ((MIDDLES0 m).get? (scanBorders (BORDERS0 m) x)).isSome = true) := by
  refine ⟨?_, ?_, ?_⟩
  · intro f _ _
    have h := stepMultiplier_range f
    omega
  · intro m h2 h5
    interval_cases m <;> exact ⟨by decide, by decide⟩
  · intro m h2 h5 x
    have hb1 := scanBorders_le_length (BORDERS1 m) x
    have hb0 := scanBorders_le_length (BORDERS0 m) x
    refine ⟨hb1, hb0, ?_, ?_⟩
    · apply get_isSome_of_lt
      interval_cases m <;> simp_all [BORDERS1, MIDDLES1] <;> omega
    · apply get_isSome_of_lt
      interval_cases m <;> simp_all [BORDERS0, MIDDLES0] <;> omega

/-- C10 witness: the table-safety facts at f = 1/3, m = 4, x = 27/10. -/
theorem claim_C10_witness :
    (0 < (1/3 : ℚ) ∧ (1/3 : ℚ) < 1 ∧ (2 : ℤ) ≤ 4 ∧ (4 : ℤ) ≤ 5) ∧
    (stepMultiplier (1/3) = 2 ∨ stepMultiplier (1/3) = 3 ∨
      stepMultiplier (1/3) = 4 ∨ stepMultiplier (1/3) = 5) ∧
    ((MIDDLES1 4).length = (BORDERS1 4).length + 1 ∧
      (MIDDLES0 4).length = (BORDERS0 4).length + 1) ∧
    (scanBorders (BORDERS1 4) (27/10) ≤ (BORDERS1 4).length ∧
      scanBorders (BORDERS0 4) (27/10) ≤ (BORDERS0 4).length ∧
      ((MIDDLES1 4).get? (scanBorders (BORDERS1 4) (27/10))).isSome = true ∧
      ((MIDDLES0 4).get? (scanBorders (BORDERS0 4) (27/10))).isSome = true) :=
  ⟨by norm_num,
   claim_C10_table_accesses_safe.1 (1/3) (by norm_num) (by norm_num),
   claim_C10_table_accesses_safe.2.1 4 (by norm_num) (by norm_num),
   claim_C10_table_accesses_safe.2.2 4 (by norm_num) (by norm_num) (27/10)⟩

-- ## C7

/-- C7 counterexample: the claim formula without the 5-decimal pre-rounding gives
0 for 44.99964 degrees at precision 1, but the code (and pipeline) return 90. -/
theorem claim_C7_counterexample :
    angleSpec 44.99964 1 ≠ angleClaimSpec 44.99964 1 ∧
    significantTransform "44.99964 °" (optsPrecision 1) = some "90 °" ∧
    angleClaimSpec 44.99964 1 = 0 := by decide

end

set_option maxHeartbeats 2000000 in
/-- C7 (amended): for an input that is not a timestamp, parses as a number, and
carries the unit "°", with precision option p ≠ 0, the transform returns the
angle-sector rounding angleSpec (which normalizes into [0,360), pre-rounds the
sector quotient to 5 decimals — the step the claim omits — rounds by sector, and
re-normalizes) rendered with the degree unit; 370 normalizes to 10 before the
sector rounding. -/
theorem claim_C7_angle_branch (i : String) (p : ℚ) (tok : NumTok)
    (hdt : dtParse (trimList i.toList) = none)
    (hnum : parseNumTok (trimList i.toList) = some tok)
    (hunit : unitOf (trimList i.toList) = some ['°'])
    (hp0 : p ≠ 0) :
    significantTransform i (optsPrecision p) =
      some (fmt (jsNumToString (angleSpec (tokVal tok) p)) "°") ∧
    jsMod (jsMod 370 360 + 360) 360 = 10 := by
  refine ⟨?_, by norm_num [jsMod, jsTrunc]⟩
  simp only [significantTransform, optsPrecision]
  dsimp only [significantCore]
  rw [hdt]
  dsimp only []
  rw [hnum]
  dsimp only []
  rw [hunit]
  dsimp only [Option.getD]
  rw [show String.mk ['°'] = "°" from rfl]
  rw [unitSwitch_degree]
  dsimp only []
  rw [if_neg hp0]
  rw [if_pos rfl]
  rw [add_zero]
  dsimp only [angleSpec]

/-- C7 witness: the angle branch at input "370 °" with precision 2. -/
theorem claim_C7_witness :
    (dtParse (trimList "370 °".toList) = none ∧
     parseNumTok (trimList "370 °".toList) =
       some ⟨false, ['3', '7', '0'], [], false, [], [' ', '°']⟩ ∧
     unitOf (trimList "370 °".toList) = some ['°'] ∧ (2 : ℚ) ≠ 0) ∧
    (significantTransform "370 °" (optsPrecision 2) =
      some (fmt (jsNumToString
        (angleSpec (tokVal ⟨false, ['3', '7', '0'], [], false, [], [' ', '°']⟩) 2)) "°") ∧
     jsMod (jsMod 370 360 + 360) 360 = 10) :=
  ⟨⟨rfl, rfl, rfl, by norm_num⟩,
   claim_C7_angle_branch "370 °" 2 _ rfl rfl rfl (by norm_num)⟩

end Significant
